import Mathlib

/-!
Verification development for the `CompileMetadataResolver` of
`src/modules/@angular/compiler/src/metadata_resolver.ts`.

Shallow embedding conventions:
* Program types (directives, pipes, modules, DI tokens that are types) are
  modelled as `Nat` references; reference identity is `Nat` equality.
* `resolveForwardRef` is the identity on our already-resolved values.
* The external collaborators (annotation resolvers, reflector, template
  normalizer, schema registry, lifecycle reflector) are an `Env` record of
  pure functions.
* JavaScript `Map` objects are association lists with in-place update
  (`alSet`), mirroring `Map.set` / `Map.delete` / `Map.clear`.
* Stateful methods are functions `ResolverState → Except CompileError α ×
  ResolverState`; a throw keeps the state as of the throw point, exactly as
  a JavaScript exception leaves already-performed mutations in place.
-/

namespace AngularMeta

/-- A raw DI token as it appears in annotations: either a plain string or a
type/identifier reference. -/
inductive RawToken where
  | str (s : String)
  | ref (r : Nat)
deriving DecidableEq, Repr

/-- `cpl.CompileTokenMetadata`: a string-valued token or an identifier-valued
token (`_getTokenMetadata` produces one or the other). -/
inductive CompileToken where
  | value (s : String)
  | identifier (r : Nat)
deriving DecidableEq, Repr

/-- `cpl.CompileIdentifierMetadata`: a reference to a type. -/
structure CompileIdent where
  reference : Nat
deriving DecidableEq, Repr

/-- `cpl.CompileDiDependencyMetadata` restricted to the fields
`_getDependenciesMetadata` sets. -/
structure DiDep where
  isAttribute : Bool
  isHost : Bool
  isSelf : Bool
  isSkipSelf : Bool
  isOptional : Bool
  token : CompileToken
deriving DecidableEq, Repr

/-- `cpl.CompileTypeMetadata` restricted to the fields `_getTypeMetadata`
sets. -/
structure CompileType where
  reference : Nat
  diDeps : List DiDep
  lifecycleHooks : List Nat
deriving DecidableEq, Repr

/-- `cpl.CompileFactoryMetadata` restricted to the fields
`_getFactoryMetadata` sets. -/
structure CompileFactory where
  reference : Nat
  diDeps : List DiDep
deriving DecidableEq, Repr

/-- One entry of a composite (array) constructor-parameter descriptor, as
classified by the `param.forEach` loop of `_getDependenciesMetadata`:
the qualifier markers, an `Attribute(name)`, an `Inject(token)`, a plain
type (`isValidType`), or any other value (which that loop ignores). -/
inductive ParamEntry where
  | host
  | self
  | skipSelf
  | optionalQ
  | attribute (name : String)
  | inject (token : RawToken)
  | typeEntry (r : Nat)
  | otherEntry
deriving DecidableEq, Repr

/-- A raw constructor-parameter descriptor: a single value (the token
directly, possibly blank) or a composite array of entries. -/
inductive RawParam where
  | single (token : Option RawToken)
  | composite (entries : List ParamEntry)
deriving DecidableEq, Repr

/-- A raw value as fed to `convertToCompileValue` (a provider `useValue`):
primitives, arrays, string maps, and "other" values (types and anything
else non-primitive), the latter carried as a reference. -/
inductive RawValue where
  | strV (s : String)
  | numV (n : Int)
  | boolV (b : Bool)
  | nullV
  | arrV (vs : List RawValue)
  | mapV (fields : List (String × RawValue))
  | otherV (r : Nat)

/-- The result of `convertToCompileValue`: identical shape, with every
"other" leaf replaced by a `CompileIdent`. -/
inductive CompileValue where
  | strV (s : String)
  | numV (n : Int)
  | boolV (b : Bool)
  | nullV
  | arrV (vs : List CompileValue)
  | mapV (fields : List (String × CompileValue))
  | identV (id : CompileIdent)

/-- A possibly nested JavaScript array, input of `flattenArray` /
`flattenAndDedupeArray`. -/
inductive Tree (α : Type) where
  | leaf (a : α)
  | node (children : List (Tree α))

/-- A raw provider declaration: a nested array, a bare type, a provider
literal (already in `cpl.ProviderMeta` shape: token plus
useClass/useValue/useExisting/useFactory/deps/multi), or a malformed
entry (anything else, carried with a tag for rendering diagnostics). -/
inductive RawProvider where
  | list (ps : List RawProvider)
  | typeP (r : Nat)
  | literal (provide : RawToken) (useClass : Option Nat) (useValue : Option RawValue)
      (useExisting : Option RawToken) (useFactory : Option Nat)
      (deps : Option (List RawParam)) (multi : Bool)
  | invalidP (tag : Nat)

mutual

/-- Structural equality on `RawValue` (stands in for the JavaScript value
identity `Set` semantics where `dedupeArray` needs it). -/
def beqRawValue : RawValue → RawValue → Bool
  | .strV a, .strV b => a == b
  | .numV a, .numV b => a == b
  | .boolV a, .boolV b => a == b
  | .nullV, .nullV => true
  | .arrV xs, .arrV ys => beqRawValueList xs ys
  | .mapV xs, .mapV ys => beqRawValueFields xs ys
  | .otherV a, .otherV b => a == b
  | _, _ => false

/-- Pointwise `beqRawValue` on lists. -/
def beqRawValueList : List RawValue → List RawValue → Bool
  | [], [] => true
  | x :: xs, y :: ys => beqRawValue x y && beqRawValueList xs ys
  | _, _ => false

/-- Pointwise `beqRawValue` on string-map fields. -/
def beqRawValueFields : List (String × RawValue) → List (String × RawValue) → Bool
  | [], [] => true
  | (k1, v1) :: xs, (k2, v2) :: ys =>
      k1 == k2 && beqRawValue v1 v2 && beqRawValueFields xs ys
  | _, _ => false

end

instance : BEq RawValue := ⟨beqRawValue⟩

mutual

/-- Structural equality on `RawProvider`, used by `dedupeArray` when raw
provider objects sit inside deduped lists. -/
def beqRawProvider : RawProvider → RawProvider → Bool
  | .list xs, .list ys => beqRawProviderList xs ys
  | .typeP a, .typeP b => a == b
  | .literal p1 c1 v1 e1 f1 d1 m1, .literal p2 c2 v2 e2 f2 d2 m2 =>
      p1 == p2 && c1 == c2 && (v1 == v2) && e1 == e2 && f1 == f2 && d1 == d2 && m1 == m2
  | .invalidP a, .invalidP b => a == b
  | _, _ => false

/-- Pointwise `beqRawProvider` on lists. -/
def beqRawProviderList : List RawProvider → List RawProvider → Bool
  | [], [] => true
  | x :: xs, y :: ys => beqRawProvider x y && beqRawProviderList xs ys
  | _, _ => false

end

instance : BEq RawProvider := ⟨beqRawProvider⟩

/-- `cpl.CompileProviderMetadata` restricted to the fields
`getProviderMetadata` sets. -/
structure CompileProvider where
  token : CompileToken
  useClass : Option CompileType
  useValue : Option CompileValue
  useFactory : Option CompileFactory
  useExisting : Option CompileToken
  deps : Option (List DiDep)
  multi : Bool

/-- One element of the array `_getProvidersMetadata` returns:
`CompileProviderMetadata | CompileTypeMetadata | any[]` (the array case is
the recursive result for a nested provider array). -/
inductive ProviderEntry where
  | provider (p : CompileProvider)
  | typeProv (t : CompileType)
  | nested (ps : List ProviderEntry)

/-- A query selector as `_getQueryMetadata` inspects it: a string of
comma-separated variable bindings, or a token (possibly absent, which is
the failure case). -/
inductive QuerySelector where
  | strSel (s : String)
  | tokSel (t : Option RawToken)
deriving DecidableEq, Repr

/-- A raw `Query` annotation value. -/
structure RawQuery where
  isViewQuery : Bool
  selector : QuerySelector
  first : Bool
  descendants : Bool
  read : Option RawToken
deriving DecidableEq, Repr

/-- `cpl.CompileQueryMetadata` restricted to the fields `_getQueryMetadata`
sets. -/
structure CompileQuery where
  selectors : List CompileToken
  first : Bool
  descendants : Bool
  propertyName : String
  read : Option CompileToken
deriving DecidableEq, Repr

/-- A raw `AnimationStyleMetadata`: an offset and opaque style maps. -/
structure RawAnimationStyle where
  offset : Option Int
  styles : List (String × String)
deriving DecidableEq, Repr

/-- Raw `AnimationMetadata` variants, as `_getAnimationMetadata`
distinguishes them. -/
inductive RawAnimation where
  | style (s : RawAnimationStyle)
  | keyframes (steps : List RawAnimationStyle)
  | animate (timings : String) (styles : RawAnimation)
  | group (steps : List RawAnimation)
  | sequence (steps : List RawAnimation)

/-- Raw `AnimationStateMetadata` variants (`_getAnimationStateMetadata`
returns null on anything else, modelled by `otherState`). -/
inductive RawAnimationState where
  | declaration (stateNameExpr : String) (styles : RawAnimationStyle)
  | transition (stateChangeExpr : String) (steps : RawAnimation)
  | otherState

/-- A raw `AnimationEntryMetadata`: name and state definitions. -/
structure RawAnimationEntry where
  name : String
  definitions : List RawAnimationState

/-- `cpl.CompileAnimationStyleMetadata`. -/
structure CompileAnimationStyle where
  offset : Option Int
  styles : List (String × String)

/-- The compiled animation metadata variants produced by
`_getAnimationMetadata` (null results modelled as `nullAnim`). -/
inductive CompileAnimation where
  | style (s : CompileAnimationStyle)
  | keyframes (steps : List CompileAnimationStyle)
  | animate (timings : String) (styles : CompileAnimation)
  | group (steps : List CompileAnimation)
  | sequence (steps : List CompileAnimation)
  | nullAnim

/-- `cpl.CompileAnimationStateMetadata` variants. -/
inductive CompileAnimationState where
  | declaration (stateNameExpr : String) (styles : CompileAnimationStyle)
  | transition (stateChangeExpr : String) (steps : CompileAnimation)

/-- `cpl.CompileAnimationEntryMetadata`; a null state conversion result
stays in the list as `none`, as in the source's `.map`. -/
structure CompileAnimationEntry where
  name : String
  definitions : List (Option CompileAnimationState)

/-- The `moduleId` field of a `Component` annotation: a string, or some
other (invalid) value. -/
inductive RawModuleId where
  | strId (s : String)
  | otherId
deriving DecidableEq, Repr

/-- The template-related fields of a raw `Component` annotation. -/
structure RawTemplate where
  encapsulation : Option Nat
  template : Option String
  templateUrl : Option String
  styles : List String
  styleUrls : List String
  animations : Option (List RawAnimationEntry)
  interpolation : Option (String × String)
  moduleId : Option RawModuleId

/-- The fields shared by raw `Directive` and `Component` annotations. -/
structure RawDirectiveCommon where
  selector : Option String
  exportAs : Option String
  inputs : List String
  outputs : List String
  host : List (String × String)
  providers : Option (List RawProvider)
  queries : Option (List (String × RawQuery))

/-- A raw directive annotation: either a plain `Directive` or a `Component`
(which additionally carries change detection, view providers, entry
components and template data). -/
inductive RawDirective where
  | directive (c : RawDirectiveCommon)
  | component (c : RawDirectiveCommon) (changeDetection : Option Nat)
      (viewProviders : Option (List RawProvider))
      (entryComponents : Option (List (Tree Nat)))
      (tmpl : RawTemplate)

/-- A raw `Pipe` annotation. -/
structure RawPipe where
  name : String
  pure : Bool
deriving DecidableEq, Repr

/-- One entry of a module's `imports` list after flattening: a type, a
`ModuleWithProviders` wrapper, or an invalid value. -/
inductive RawImportEntry where
  | modType (r : Nat)
  | moduleWithProviders (ngModule : Nat) (providers : Option (List RawProvider))
  | invalidImport (tag : Nat)

/-- Equality used by the JavaScript `Set` dedupe over import entries. -/
def beqRawImportEntry : RawImportEntry → RawImportEntry → Bool
  | .modType a, .modType b => a == b
  | .moduleWithProviders m1 p1, .moduleWithProviders m2 p2 => m1 == m2 && p1 == p2
  | .invalidImport a, .invalidImport b => a == b
  | _, _ => false

instance : BEq RawImportEntry := ⟨beqRawImportEntry⟩

/-- One entry of a module's `exports` / `declarations` / `bootstrap` lists
after flattening: a valid type or an invalid value. -/
inductive RawTypeEntry where
  | validType (r : Nat)
  | invalidType (tag : Nat)
deriving DecidableEq, Repr

/-- A raw `NgModule` annotation. -/
structure RawModule where
  imports : Option (List (Tree RawImportEntry))
  exports : Option (List (Tree RawTypeEntry))
  declarations : Option (List (Tree RawTypeEntry))
  providers : Option (List RawProvider)
  entryComponents : Option (List (Tree Nat))
  bootstrap : Option (List (Tree RawTypeEntry))
  schemas : Option (List (Tree Nat))
  id : Option String

/-- `cpl.CompileTemplateMetadata` (non-normalized ones are built by
`getNonNormalizedDirectiveMetadata`; normalized ones come back from the
external `DirectiveNormalizer`). -/
structure CompileTemplateMetadata where
  encapsulation : Option Nat
  template : Option String
  templateUrl : Option String
  styles : List String
  styleUrls : List String
  animations : Option (List CompileAnimationEntry)
  interpolation : Option (String × String)

/-- The argument record of `DirectiveNormalizer.normalizeTemplate`, as
assembled in `_loadDirectiveMetadata`. -/
structure NormalizeRequest where
  componentType : Nat
  moduleUrl : String
  encapsulation : Option Nat
  template : Option String
  templateUrl : Option String
  styles : List String
  styleUrls : List String
  animations : Option (List CompileAnimationEntry)
  interpolation : Option (String × String)

/-- `SyncAsyncResult`: an immediately available result or a deferred one.
The deferred constructor carries the value the promise will eventually
resolve to (the embedding has no real time). -/
inductive SyncAsync (α : Type) where
  | sync (a : α)
  | async (a : α)

/-- The external collaborators of the resolver, as pure functions:
`DirectiveResolver` / `PipeResolver` / `NgModuleResolver` (annotation
reading and the `isDirective` / `isPipe` / `isNgModule` predicates), the
`ReflectorReader` (`parameters`, `importUri`), the lifecycle reflector,
the `ElementSchemaRegistry` and the `DirectiveNormalizer`. The annotation
readers return `none` when the type has no such annotation. -/
structure Env where
  isDirective : Nat → Bool
  isPipe : Nat → Bool
  isNgModule : Nat → Bool
  directiveAnnot : Nat → Option RawDirective
  pipeAnnot : Nat → Option RawPipe
  moduleAnnot : Nat → Option RawModule
  parameters : Nat → Option (List RawParam)
  hasLifecycleHook : Nat → Nat → Bool
  defaultComponentElementName : String
  normalizeTemplate : NormalizeRequest → SyncAsync CompileTemplateMetadata
  importUri : Nat → String

/-- `LIFECYCLE_HOOKS_VALUES`: the fixed list of lifecycle hook ids the
resolver filters with `hasLifecycleHook`. -/
def lifecycleHooksValues : List Nat := [0, 1, 2, 3, 4, 5, 6, 7]

/-- `cpl.CompileDirectiveMetadata` restricted to the fields the resolver
reads and writes. -/
structure CompileDirectiveMetadata where
  type : CompileType
  isComponent : Bool
  selector : Option String
  exportAs : Option String
  changeDetection : Option Nat
  inputs : List String
  outputs : List String
  hostListeners : List (String × String)
  hostProperties : List (String × String)
  hostAttributes : List (String × String)
  providers : List ProviderEntry
  viewProviders : List ProviderEntry
  queries : List CompileQuery
  viewQueries : List CompileQuery
  entryComponents : List CompileIdent
  template : Option CompileTemplateMetadata

/-- Modelled from the spec: the Summary projection of a directive record
"strips template/provider detail, retaining only what other modules need
transitively (selector, exportAs, inputs/outputs, hostListeners, etc.)";
the class lives in the external `compile_metadata.ts`. -/
structure CompileDirectiveSummary where
  type : CompileType
  isComponent : Bool
  selector : Option String
  exportAs : Option String
  inputs : List String
  outputs : List String
  hostListeners : List (String × String)
  hostProperties : List (String × String)
  hostAttributes : List (String × String)

/-- `cpl.CompilePipeMetadata` restricted to the fields `_loadPipeMetadata`
sets. -/
structure CompilePipeMetadata where
  type : CompileType
  name : String
  pure : Bool
deriving DecidableEq, Repr

/-- Modelled from the spec: the pipe Summary "mirrors this directly". -/
structure CompilePipeSummary where
  type : CompileType
  name : String
  pure : Bool
deriving DecidableEq, Repr

/-- Modelled from the spec: `cpl.CompileNgModuleSummary` (external
`compile_metadata.ts`), the projection of a resolved module that
transitive resolution traverses: its type, own providers and entry
components, the summaries of its imported and exported modules, its own
exported directives/pipes and its directive loaders. A loader closure
`() => _loadDirectiveMetadata(declaredType, isSync)` is carried as the
`(declaredType, isSync)` pair it captures. -/
inductive ModuleSummary where
  | mk (typeRef : Nat)
      (providers : List ProviderEntry)
      (entryComponents : List CompileIdent)
      (importedModules : List ModuleSummary)
      (exportedModules : List ModuleSummary)
      (exportedDirectives : List CompileIdent)
      (exportedPipes : List CompileIdent)
      (directiveLoaders : List (Nat × Bool))

/-- The module type reference of a summary. -/
def ModuleSummary.typeRef : ModuleSummary → Nat
  | .mk r _ _ _ _ _ _ _ => r

/-- The own providers of a summary. -/
def ModuleSummary.providers : ModuleSummary → List ProviderEntry
  | .mk _ p _ _ _ _ _ _ => p

/-- The own entry components of a summary. -/
def ModuleSummary.entryComponents : ModuleSummary → List CompileIdent
  | .mk _ _ e _ _ _ _ _ => e

/-- The imported-module summaries of a summary. -/
def ModuleSummary.importedModules : ModuleSummary → List ModuleSummary
  | .mk _ _ _ i _ _ _ _ => i

/-- The exported-module summaries of a summary. -/
def ModuleSummary.exportedModules : ModuleSummary → List ModuleSummary
  | .mk _ _ _ _ e _ _ _ => e

/-- The exported directives of a summary. -/
def ModuleSummary.exportedDirectives : ModuleSummary → List CompileIdent
  | .mk _ _ _ _ _ d _ _ => d

/-- The exported pipes of a summary. -/
def ModuleSummary.exportedPipes : ModuleSummary → List CompileIdent
  | .mk _ _ _ _ _ _ p _ => p

/-- The directive loaders of a summary. -/
def ModuleSummary.directiveLoaders : ModuleSummary → List (Nat × Bool)
  | .mk _ _ _ _ _ _ _ l => l

/-- `cpl.TransitiveCompileNgModuleMetadata`: the push-mutated aggregate of a
module under resolution. The class is external; its constructor seeds the
`directivesSet` / `pipesSet` from the directive / pipe identifier lists
(modelled from the spec's "transitive directive-or-pipe set"). -/
structure TransitiveMeta where
  modules : List ModuleSummary
  providers : List ProviderEntry
  entryComponents : List CompileIdent
  directives : List CompileIdent
  directivesSet : List Nat
  pipes : List CompileIdent
  pipesSet : List Nat
  directiveLoaders : List (Nat × Bool)

/-- `cpl.CompileNgModuleMetadata` restricted to the fields
`_loadNgModuleMetadata` sets. -/
structure CompileNgModuleMetadata where
  type : CompileType
  providers : List ProviderEntry
  entryComponents : List CompileIdent
  bootstrapComponents : List CompileIdent
  schemas : List Nat
  declaredDirectives : List CompileIdent
  exportedDirectives : List CompileIdent
  declaredPipes : List CompileIdent
  exportedPipes : List CompileIdent
  importedModules : List ModuleSummary
  exportedModules : List ModuleSummary
  transitiveModule : TransitiveMeta
  id : Option String

/-- The mutable state of a `CompileMetadataResolver` instance: its six
cache maps. -/
structure ResolverState where
  directiveCache : List (Nat × CompileDirectiveMetadata)
  directiveSummaryCache : List (Nat × CompileDirectiveSummary)
  pipeCache : List (Nat × CompilePipeMetadata)
  pipeSummaryCache : List (Nat × CompilePipeSummary)
  ngModuleCache : List (Nat × CompileNgModuleMetadata)
  ngModuleOfTypes : List (Nat × Nat)

/-- The resolver state with all caches empty (a fresh instance). -/
def emptyState : ResolverState :=
  { directiveCache := [], directiveSummaryCache := [], pipeCache := [],
    pipeSummaryCache := [], ngModuleCache := [], ngModuleOfTypes := [] }

/-- The errors the resolver throws: `ComponentStillLoadingError` (its own
class) and plain `Error(message)` diagnostics. `fuelExhausted` is the
embedding's stand-in for the unbounded recursion a cyclic module graph
causes in the source (which has no cycle guard). -/
inductive CompileError where
  | componentStillLoading (ref : Nat)
  | message (msg : String)
  | fuelExhausted
deriving DecidableEq, Repr

/-- The resolver monad: explicit state passing with exceptions that keep
the state as of the throw point, exactly like a JavaScript method whose
mutations so far survive a thrown `Error`. -/
def ResM (α : Type) : Type :=
  ResolverState → Except CompileError α × ResolverState

instance : Monad ResM where
  pure a := fun st => (.ok a, st)
  bind m k := fun st =>
    match m st with
    | (.ok a, st1) => k a st1
    | (.error e, st1) => (.error e, st1)

/-- Throw a diagnostic, keeping the state. -/
def throwR {α : Type} (e : CompileError) : ResM α := fun st => (.error e, st)

/-- Read the resolver state. -/
def getR : ResM ResolverState := fun st => (.ok st, st)

/-- Update the resolver state. -/
def modifyR (f : ResolverState → ResolverState) : ResM Unit := fun st => (.ok (), f st)

/-- Lift a pure `Except` computation (a helper whose exceptions propagate
into the calling method). -/
def liftE {α : Type} : Except CompileError α → ResM α
  | .ok a => fun st => (.ok a, st)
  | .error e => fun st => (.error e, st)

/-- Association-list lookup, modelling `Map.get`. -/
def alGet {α : Type} : List (Nat × α) → Nat → Option α
  | [], _ => none
  | (k1, v) :: rest, k => if k1 = k then some v else alGet rest k

/-- Association-list update, modelling `Map.set` (in-place update keeps the
original insertion position; a new key is appended). -/
def alSet {α : Type} : List (Nat × α) → Nat → α → List (Nat × α)
  | [], k, v => [(k, v)]
  | (k1, v1) :: rest, k, v =>
      if k1 = k then (k1, v) :: rest else (k1, v1) :: alSet rest k v

/-- Association-list removal, modelling `Map.delete`. -/
def alDelete {α : Type} : List (Nat × α) → Nat → List (Nat × α)
  | [], _ => []
  | (k1, v) :: rest, k =>
      if k1 = k then alDelete rest k else (k1, v) :: alDelete rest k

/-- The key list of an association list (`Map` insertion order). -/
def alKeys {α : Type} (m : List (Nat × α)) : List Nat := m.map Prod.fst

/-- Rendering of a type reference, standing in for the external facade
`stringify(type)` (which prints the class name; the exact text is opaque
to this file's claims). -/
def stringifyRef (r : Nat) : String := "Type" ++ toString r

/-- Rendering of a compiled token, standing in for `stringify(dep.token)`:
a string token prints as itself, an identifier token as its type. -/
def stringifyToken : CompileToken → String
  | .value s => s
  | .identifier r => stringifyRef r

/-- Rendering of a raw token. -/
def stringifyRawToken : RawToken → String
  | .str s => s
  | .ref r => stringifyRef r

/-- Rendering of a raw provider entry for the `InvalidProvider` diagnostic,
standing in for the external `stringify` (objects print as
"[object Object]", arrays as their comma-joined elements). -/
def stringifyRawProvider : RawProvider → String
  | .list _ => "[array]"
  | .typeP r => stringifyRef r
  | .literal _ _ _ _ _ _ _ => "[object Object]"
  | .invalidP tag => "Value" ++ toString tag

/-- Rendering of an import entry for diagnostics. -/
def stringifyImportEntry : RawImportEntry → String
  | .modType r => stringifyRef r
  | .moduleWithProviders _ _ => "[object Object]"
  | .invalidImport tag => "Value" ++ toString tag

/-- Rendering of an export/declaration/bootstrap entry for diagnostics. -/
def stringifyTypeEntry : RawTypeEntry → String
  | .validType r => stringifyRef r
  | .invalidType tag => "Value" ++ toString tag

mutual

/-- One element of `flattenArray`'s input: a leaf stays, an array is
flattened recursively. -/
def flattenTree {α : Type} : Tree α → List α
  | .leaf a => [a]
  | .node ts => flattenTrees ts

/-- The elements of `flattenArray`'s input, in order (the source pushes
into a shared `out` accumulator; concatenation is the same list). -/
def flattenTrees {α : Type} : List (Tree α) → List α
  | [] => []
  | t :: rest => flattenTree t ++ flattenTrees rest

end

/-- `flattenArray`: recursively flattens nested arrays, in order, without
deduping (`resolveForwardRef` on each element is the identity here). -/
def flattenArray {α : Type} (tree : List (Tree α)) : List α := flattenTrees tree

/-- `dedupeArray` worker: keeps the first occurrence of each element, as
`Array.from(new Set(array))` does. -/
def dedupeGo {α : Type} [BEq α] (seen : List α) : List α → List α
  | [] => []
  | x :: xs =>
      if seen.contains x then dedupeGo seen xs
      else x :: dedupeGo (seen ++ [x]) xs

/-- `dedupeArray`: `Array.from(new Set(array))`. -/
def dedupeArray {α : Type} [BEq α] (array : List α) : List α := dedupeGo [] array

/-- `flattenAndDedupeArray`. -/
def flattenAndDedupeArray {α : Type} [BEq α] (tree : List (Tree α)) : List α :=
  dedupeArray (flattenArray tree)

/-- `_getIdentifierMetadata` (forward-reference resolution is the
identity). -/
def _getIdentifierMetadata (type : Nat) : CompileIdent := ⟨type⟩

/-- `_getTokenMetadata`: a string becomes a string-valued token, anything
else an identifier-valued token. -/
def _getTokenMetadata : RawToken → CompileToken
  | .str s => .value s
  | .ref r => .identifier r

/-- `cpl.tokenReference` as far as the resolver compares it: the identifier
reference of a token, or nothing for a string-valued token (a string is
never reference-equal to the `ANALYZE_FOR_ENTRY_COMPONENTS` type). -/
def tokenReference : CompileToken → Option Nat
  | .value _ => none
  | .identifier r => some r

/-- The reserved `ANALYZE_FOR_ENTRY_COMPONENTS` collector token's type
reference (`resolveIdentifier(Identifiers.ANALYZE_FOR_ENTRY_COMPONENTS)`). -/
def analyzeForEntryComponentsRef : Nat := 0

/-- The running state of the `param.forEach` scan inside
`_getDependenciesMetadata`: the five qualifier flags and the token found
so far. -/
structure ParamScan where
  isAttribute : Bool := false
  isHost : Bool := false
  isSelf : Bool := false
  isSkipSelf : Bool := false
  isOptional : Bool := false
  token : Option RawToken := none
deriving DecidableEq, Repr

/-- One step of the `param.forEach` scan: qualifier markers set their flag;
`Attribute` sets the flag and overwrites the token with the attribute name
string; `Inject` overwrites the token; a plain type becomes the token only
if none was set yet (`isValidType(paramEntry) && isBlank(token)`); other
values are ignored. -/
def scanParamEntry (s : ParamScan) : ParamEntry → ParamScan
  | .host => { s with isHost := true }
  | .self => { s with isSelf := true }
  | .skipSelf => { s with isSkipSelf := true }
  | .optionalQ => { s with isOptional := true }
  | .attribute name => { s with isAttribute := true, token := some (.str name) }
  | .inject token => { s with token := some token }
  | .typeEntry r => if s.token = none then { s with token := some (.ref r) } else s
  | .otherEntry => s

/-- The full scan of one raw parameter: a non-array parameter is the token
directly; an array is scanned entry by entry. -/
def scanParam : RawParam → ParamScan
  | .single token => { token := token }
  | .composite entries => entries.foldl scanParamEntry {}

/-- The per-parameter body of the `params.map` in
`_getDependenciesMetadata`: `none` when no token was determined (the
source pushes `null` and records `hasUnknownDeps`). -/
def dependencyOfParam (param : RawParam) : Option DiDep :=
  let s := scanParam param
  match s.token with
  | none => none
  | some token =>
      some { isAttribute := s.isAttribute, isHost := s.isHost, isSelf := s.isSelf,
             isSkipSelf := s.isSkipSelf, isOptional := s.isOptional,
             token := _getTokenMetadata token }

/-- Turns a list of optional values into a list of values when none is
missing. -/
def seqOptions {α : Type} : List (Option α) → Option (List α)
  | [] => some []
  | none :: _ => none
  | some a :: rest => (seqOptions rest).map (a :: ·)

/-- The parameter list `_getDependenciesMetadata` works on:
`dependencies || this._reflector.parameters(typeOrFunc) || []`. -/
def effectiveParams (env : Env) (typeOrFunc : Nat) (dependencies : Option (List RawParam)) :
    List RawParam :=
  match dependencies with
  | some ds => ds
  | none => (env.parameters typeOrFunc).getD []

/-- The comma-joined token list of the `UnresolvedDependency` diagnostic:
one entry per parameter, `?` for an undetermined token, the stringified
token otherwise. -/
def depsTokensString (depsOpt : List (Option DiDep)) : String :=
  String.intercalate (", ")
    (depsOpt.map (fun d =>
      match d with
      | some dep => stringifyToken dep.token
      | none => "?"))

/-- `_getDependenciesMetadata`: maps every parameter (even after an
undetermined one) and fails afterwards when any token was undetermined. -/
def _getDependenciesMetadata (env : Env) (typeOrFunc : Nat)
    (dependencies : Option (List RawParam)) : Except CompileError (List DiDep) :=
  let params := effectiveParams env typeOrFunc dependencies
  let depsOpt := params.map dependencyOfParam
  match seqOptions depsOpt with
  | some deps => .ok deps
  | none =>
      .error (.message ("Can't resolve all parameters for " ++ stringifyRef typeOrFunc ++
        ": (" ++ depsTokensString depsOpt ++ ")."))

/-- `_getTypeMetadata`: identifier, DI dependencies, and the lifecycle hooks
detected by the external lifecycle reflector. -/
def _getTypeMetadata (env : Env) (type : Nat) (dependencies : Option (List RawParam)) :
    Except CompileError CompileType := do
  let identifier := _getIdentifierMetadata type
  let diDeps ← _getDependenciesMetadata env identifier.reference dependencies
  .ok { reference := identifier.reference, diDeps,
        lifecycleHooks :=
          lifecycleHooksValues.filter (fun hook => env.hasLifecycleHook hook identifier.reference) }

/-- `_getFactoryMetadata`. -/
def _getFactoryMetadata (env : Env) (factory : Nat) (dependencies : Option (List RawParam)) :
    Except CompileError CompileFactory := do
  let diDeps ← _getDependenciesMetadata env factory dependencies
  .ok { reference := factory, diDeps }

mutual

/-- Modelled from the spec: `convertToCompileValue` uses the external
`visitValue` / `ValueTransformer` of `util.ts` — "arrays/maps traversed,
leaf types converted to Identifiers, everything else passed through
opaque"; the `_CompileValueConverter` pushes every converted identifier
onto the target list. Returns the converted value and the identifiers
collected in traversal order. -/
def convertToCompileValue : RawValue → CompileValue × List CompileIdent
  | .strV s => (.strV s, [])
  | .numV n => (.numV n, [])
  | .boolV b => (.boolV b, [])
  | .nullV => (.nullV, [])
  | .arrV vs =>
      let (cs, ids) := convertValueList vs
      (.arrV cs, ids)
  | .mapV fields =>
      let (cs, ids) := convertValueFields fields
      (.mapV cs, ids)
  | .otherV r =>
      let identifier : CompileIdent := { reference := r }
      (.identV identifier, [identifier])

/-- Array traversal of `convertToCompileValue`. -/
def convertValueList : List RawValue → List CompileValue × List CompileIdent
  | [] => ([], [])
  | v :: vs =>
      let (c, ids1) := convertToCompileValue v
      let (cs, ids2) := convertValueList vs
      (c :: cs, ids1 ++ ids2)

/-- String-map traversal of `convertToCompileValue`. -/
def convertValueFields :
    List (String × RawValue) → List (String × CompileValue) × List CompileIdent
  | [] => ([], [])
  | (k, v) :: fs =>
      let (c, ids1) := convertToCompileValue v
      let (cs, ids2) := convertValueFields fs
      ((k, c) :: cs, ids1 ++ ids2)

end

mutual

/-- The "other" (non-primitive, non-array, non-map) leaf references of a raw
value, in traversal order: the identifiers `convertToCompileValue`
collects. -/
def otherRefs : RawValue → List Nat
  | .strV _ => []
  | .numV _ => []
  | .boolV _ => []
  | .nullV => []
  | .arrV vs => otherRefsList vs
  | .mapV fields => otherRefsFields fields
  | .otherV r => [r]

/-- Array traversal of `otherRefs`. -/
def otherRefsList : List RawValue → List Nat
  | [] => []
  | v :: vs => otherRefs v ++ otherRefsList vs

/-- String-map traversal of `otherRefs`. -/
def otherRefsFields : List (String × RawValue) → List Nat
  | [] => []
  | (_, v) :: fs => otherRefs v ++ otherRefsFields fs

end

/-- `cpl.ProviderMeta`: the lifted provider-literal record. -/
structure ProviderMeta where
  token : RawToken
  useClass : Option Nat
  useValue : Option RawValue
  useExisting : Option RawToken
  useFactory : Option Nat
  dependencies : Option (List RawParam)
  multi : Bool

/-- `_getEntryComponentsFromProvider`: requires pure `useValue` and
`multi = true`, deep-scans the value, and keeps the identifiers the
`DirectiveResolver.isDirective` predicate accepts. -/
def _getEntryComponentsFromProvider (env : Env) (provider : ProviderMeta) :
    Except CompileError (List CompileIdent) := do
  if provider.useFactory.isSome || provider.useExisting.isSome || provider.useClass.isSome then
    .error (.message ("The ANALYZE_FOR_ENTRY_COMPONENTS token only supports useValue!"))
  else if !provider.multi then
    .error (.message ("The ANALYZE_FOR_ENTRY_COMPONENTS token only supports 'multi = true'!"))
  else
    let collectedIdentifiers :=
      match provider.useValue with
      | some v => (convertToCompileValue v).2
      | none => []
    .ok (collectedIdentifiers.filter (fun identifier => env.isDirective identifier.reference))

/-- `getProviderMetadata`: class providers derive DI deps from the class,
factory providers from the factory; the `useValue` is converted (with a
throw-away identifier target). -/
def getProviderMetadata (env : Env) (provider : ProviderMeta) :
    Except CompileError CompileProvider := do
  let (compileTypeMetadata, compileFactoryMetadata, compileDeps) ←
    match provider.useClass with
    | some cls => do
        let t ← _getTypeMetadata env cls provider.dependencies
        .ok (some t, (none : Option CompileFactory), some t.diDeps)
    | none =>
        match provider.useFactory with
        | some factory => do
            let f ← _getFactoryMetadata env factory provider.dependencies
            .ok ((none : Option CompileType), some f, some f.diDeps)
        | none => .ok (none, none, none)
  .ok { token := _getTokenMetadata provider.token,
        useClass := compileTypeMetadata,
        useValue := provider.useValue.map (fun v => (convertToCompileValue v).1),
        useFactory := compileFactoryMetadata,
        useExisting := provider.useExisting.map _getTokenMetadata,
        deps := compileDeps,
        multi := provider.multi }

/-- The `providersInfo` string of the `InvalidProvider` diagnostic: every
provider before the offending index, the offending one bracketed by `?`,
then `...` once. -/
def providersInfoString (providers : List RawProvider) (providerIdx : Nat) : String :=
  String.intercalate (", ")
    (((List.range providers.length).zip providers).filterMap (fun p =>
      if p.1 < providerIdx then some (stringifyRawProvider p.2)
      else if p.1 = providerIdx then some ("?" ++ stringifyRawProvider p.2 ++ "?")
      else if p.1 = providerIdx + 1 then some ("...")
      else none))

mutual

/-- The `providers.forEach` loop of `_getProvidersMetadata`, with the full
list and current index kept for diagnostics. -/
def providersLoop (env : Env) (all : List RawProvider) (debugInfo : Option String) :
    List RawProvider → Nat → Except CompileError (List ProviderEntry × List CompileIdent)
  | [], _ => .ok ([], [])
  | provider :: rest, providerIdx => do
      let (entryOpt, ids) ← compileOneProvider env all debugInfo provider providerIdx
      let (entries, ids2) ← providersLoop env all debugInfo rest (providerIdx + 1)
      .ok ((match entryOpt with
            | some entry => entry :: entries
            | none => entries), ids ++ ids2)

/-- One iteration of the `providers.forEach` loop: nested arrays recurse
(the inner `providersLoop` seeded with the nested list is
`_getProvidersMetadata` on it, by definition); provider literals (lifted
to `ProviderMeta`) are diverted to the entry-component collector when
their token is the reserved one, otherwise compiled; bare types become
type metadata; anything else is the `InvalidProvider` diagnostic. -/
def compileOneProvider (env : Env) (all : List RawProvider) (debugInfo : Option String)
    (provider : RawProvider) (providerIdx : Nat) :
    Except CompileError (Option ProviderEntry × List CompileIdent) :=
  match provider with
  | .list ps => do
      let (entries, ids) ← providersLoop env ps debugInfo ps 0
      .ok (some (.nested entries), ids)
  | .literal provide useClass useValue useExisting useFactory deps multi =>
      let pm : ProviderMeta :=
        { token := provide, useClass, useValue, useExisting, useFactory,
          dependencies := deps, multi }
      let tokenMeta := _getTokenMetadata pm.token
      if tokenReference tokenMeta = some analyzeForEntryComponentsRef then do
        let ids ← _getEntryComponentsFromProvider env pm
        .ok (none, ids)
      else do
        let cp ← getProviderMetadata env pm
        .ok (some (.provider cp), [])
  | .typeP r => do
      let t ← _getTypeMetadata env r none
      .ok (some (.typeProv t), [])
  | .invalidP _ =>
      .error (.message ("Invalid " ++ (debugInfo.getD ("provider")) ++
        " - only instances of Provider and Type are allowed, got: [" ++
        providersInfoString all providerIdx ++ "]"))

end

/-- `_getProvidersMetadata`: normalizes a raw provider list. Returns the
compiled provider entries together with the identifiers pushed onto the
`targetEntryComponents` sink (the caller appends them, modelling the
by-reference array). -/
def _getProvidersMetadata (env : Env) (providers : List RawProvider)
    (debugInfo : Option String) :
    Except CompileError (List ProviderEntry × List CompileIdent) :=
  providersLoop env providers debugInfo providers 0

/-- `_queryVarBindings`: `selector.split(/\s*,\s*/)` — comma-split with
whitespace trimming. -/
def _queryVarBindings (selector : String) : List String :=
  (selector.splitOn (",")).map String.trim

/-- `_getQueryMetadata`: a string selector becomes one token per variable
binding; a token selector must be present or the resolution fails. -/
def _getQueryMetadata (q : RawQuery) (propertyName : String) (typeOrFunc : Nat) :
    Except CompileError CompileQuery := do
  let selectors ←
    match q.selector with
    | .strSel s => .ok ((_queryVarBindings s).map (fun varName => _getTokenMetadata (.str varName)))
    | .tokSel none =>
        .error (.message ("Can't construct a query for the property \"" ++ propertyName ++
          "\" of \"" ++ stringifyRef typeOrFunc ++ "\" since the query selector wasn't defined."))
    | .tokSel (some token) => .ok [_getTokenMetadata token]
  .ok { selectors, first := q.first, descendants := q.descendants, propertyName,
        read := q.read.map _getTokenMetadata }

/-- `_getQueriesMetadata`: walks the queries map in key order, keeping the
entries whose `isViewQuery` matches. -/
def _getQueriesMetadata (isViewQuery : Bool) (directiveType : Nat) :
    List (String × RawQuery) → Except CompileError (List CompileQuery)
  | [] => .ok []
  | (propertyName, q) :: rest =>
      if q.isViewQuery == isViewQuery then do
        let cq ← _getQueryMetadata q propertyName directiveType
        let res ← _getQueriesMetadata isViewQuery directiveType rest
        .ok (cq :: res)
      else _getQueriesMetadata isViewQuery directiveType rest

/-- `_getAnimationStyleMetadata`. -/
def _getAnimationStyleMetadata (value : RawAnimationStyle) : CompileAnimationStyle :=
  { offset := value.offset, styles := value.styles }

mutual

/-- `_getAnimationMetadata`: structure-preserving conversion of the
animation metadata variants. -/
def _getAnimationMetadata : RawAnimation → CompileAnimation
  | .style s => .style (_getAnimationStyleMetadata s)
  | .keyframes steps => .keyframes (steps.map _getAnimationStyleMetadata)
  | .animate timings styles => .animate timings (_getAnimationMetadata styles)
  | .group steps => .group (animationList steps)
  | .sequence steps => .sequence (animationList steps)

/-- Step-list traversal of `_getAnimationMetadata`. -/
def animationList : List RawAnimation → List CompileAnimation
  | [] => []
  | a :: rest => _getAnimationMetadata a :: animationList rest

end

/-- `_getAnimationStateMetadata`: declaration and transition variants
convert; anything else yields null. -/
def _getAnimationStateMetadata : RawAnimationState → Option CompileAnimationState
  | .declaration stateNameExpr styles =>
      some (.declaration stateNameExpr (_getAnimationStyleMetadata styles))
  | .transition stateChangeExpr steps =>
      some (.transition stateChangeExpr (_getAnimationMetadata steps))
  | .otherState => none

/-- `getAnimationEntryMetadata`. -/
def getAnimationEntryMetadata (entry : RawAnimationEntry) : CompileAnimationEntry :=
  { name := entry.name, definitions := entry.definitions.map _getAnimationStateMetadata }

/-- JavaScript truthiness of an optional string (`!selector` is true for
undefined, null and the empty string). -/
def strTruthy : Option String → Bool
  | some s => !(s == "")
  | none => false

/-- Modelled from the spec: `CompileDirectiveMetadata.create` (external
`compile_metadata.ts`) splits the `host` map into listeners
(`(event)` keys), properties (`[prop]` keys) and attributes (the rest),
stripping the brackets. Returns (listeners, properties, attributes). -/
def splitHostBindings (host : List (String × String)) :
    List (String × String) × List (String × String) × List (String × String) :=
  (host.filterMap (fun kv =>
      if kv.1.startsWith ("(") && kv.1.endsWith (")") then
        some ((kv.1.drop 1).dropRight 1, kv.2)
      else none),
   host.filterMap (fun kv =>
      if kv.1.startsWith ("[") && kv.1.endsWith ("]") then
        some ((kv.1.drop 1).dropRight 1, kv.2)
      else none),
   host.filterMap (fun kv =>
      if (kv.1.startsWith ("(") && kv.1.endsWith (")")) ||
         (kv.1.startsWith ("[") && kv.1.endsWith ("]")) then none
      else some kv))

/-- `CompileDirectiveMetadata.create` restricted to what the resolver uses
(inputs/outputs rename parsing of the external class is the identity
here). -/
def createCompileDirectiveMetadata (type : CompileType) (isComponent : Bool)
    (selector exportAs : Option String) (changeDetection : Option Nat)
    (inputs outputs : List String) (host : List (String × String))
    (providers viewProviders : List ProviderEntry) (queries viewQueries : List CompileQuery)
    (entryComponents : List CompileIdent) (template : Option CompileTemplateMetadata) :
    CompileDirectiveMetadata :=
  let (hostListeners, hostProperties, hostAttributes) := splitHostBindings host
  { type, isComponent, selector, exportAs, changeDetection, inputs, outputs,
    hostListeners, hostProperties, hostAttributes, providers, viewProviders,
    queries, viewQueries, entryComponents, template }

/-- Modelled from the spec: `CompileDirectiveMetadata.toSummary` — the
summary "strips template/provider detail". -/
def CompileDirectiveMetadata.toSummary (m : CompileDirectiveMetadata) :
    CompileDirectiveSummary :=
  { type := m.type, isComponent := m.isComponent, selector := m.selector,
    exportAs := m.exportAs, inputs := m.inputs, outputs := m.outputs,
    hostListeners := m.hostListeners, hostProperties := m.hostProperties,
    hostAttributes := m.hostAttributes }

/-- Modelled from the spec: `CompilePipeMetadata.toSummary` mirrors the
record directly. -/
def CompilePipeMetadata.toSummary (m : CompilePipeMetadata) : CompilePipeSummary :=
  { type := m.type, name := m.name, pure := m.pure }

/-- The common fields of a raw directive annotation. -/
def RawDirective.common : RawDirective → RawDirectiveCommon
  | .directive c => c
  | .component c _ _ _ _ => c

/-- `DirectiveResolver.resolve` (external): returns the annotation or
throws when the type has none. -/
def directiveResolverResolve (env : Env) (directiveType : Nat) :
    Except CompileError RawDirective :=
  match env.directiveAnnot directiveType with
  | some dirMeta => .ok dirMeta
  | none =>
      .error (.message ("No Directive annotation found on " ++ stringifyRef directiveType))

/-- `PipeResolver.resolve` (external): returns the annotation or throws. -/
def pipeResolverResolve (env : Env) (pipeType : Nat) : Except CompileError RawPipe :=
  match env.pipeAnnot pipeType with
  | some pipeMeta => .ok pipeMeta
  | none =>
      .error (.message ("No Pipe decorator found on " ++ stringifyRef pipeType))

/-- `NgModuleResolver.resolve` (external): the annotation, or a throw when
`throwIfNotFound` is set, or `none`. -/
def ngModuleResolverResolve (env : Env) (moduleType : Nat) (throwIfNotFound : Bool) :
    Except CompileError (Option RawModule) :=
  match env.moduleAnnot moduleType with
  | some meta => .ok (some meta)
  | none =>
      if throwIfNotFound then
        .error (.message ("No NgModule metadata found for " ++ stringifyRef moduleType ++ "."))
      else .ok none

/-- `getUrlScheme` (external `url_resolver.ts`), modelled: a URL has a
scheme when it contains "://". -/
def getUrlScheme (url : String) : String :=
  match url.splitOn ("://") with
  | scheme :: _ :: _ => scheme
  | _ => ""

/-- `MODULE_SUFFIX` (external `util.ts`), modelled as the empty suffix. -/
def moduleSuffix : String := ""

/-- `componentModuleUrl`: a string `moduleId` is kept (or wrapped as a
`package:` URL when scheme-less); a non-string `moduleId` is a
diagnostic; otherwise the reflector's import URI is used. `isStaticSymbol`
is false for the dynamic types of this embedding. -/
def componentModuleUrl (env : Env) (type : Nat) (cmpMetadata : RawDirective) :
    Except CompileError String :=
  let moduleId : Option RawModuleId :=
    match cmpMetadata with
    | .component _ _ _ _ tmpl => tmpl.moduleId
    | .directive _ => none
  match moduleId with
  | some (.strId mid) =>
      let scheme := getUrlScheme mid
      if !(scheme == "") then .ok mid else .ok ("package:" ++ mid ++ moduleSuffix)
  | some .otherId =>
      .error (.message ("moduleId should be a string in \"" ++ stringifyRef type ++
        "\". See https://goo.gl/wIDDiL for more information.\nIf you're using Webpack you should inline the template and the styles, see https://goo.gl/X2J8zc."))
  | none => .ok (env.importUri type)

/-- `getNonNormalizedDirectiveMetadata`: reads the annotation, builds the
non-normalized template (components), normalizes providers/view
providers/entry components/queries, checks the selector, and assembles
the directive metadata. -/
def getNonNormalizedDirectiveMetadata (env : Env) (directiveType : Nat) :
    Except CompileError (RawDirective × CompileDirectiveMetadata) := do
  let dirMeta ← directiveResolverResolve env directiveType
  let common := dirMeta.common
  let nonNormalizedTemplateMetadata : Option CompileTemplateMetadata :=
    match dirMeta with
    | .component _ _ _ _ tmpl =>
        -- `assertArrayOfStrings` / `assertInterpolationSymbols` cannot fail on
        -- this typed model: styles/styleUrls are string lists by construction.
        let animations := tmpl.animations.map (fun es => es.map getAnimationEntryMetadata)
        some { encapsulation := tmpl.encapsulation, template := tmpl.template,
               templateUrl := tmpl.templateUrl, styles := tmpl.styles,
               styleUrls := tmpl.styleUrls, animations, interpolation := tmpl.interpolation }
    | .directive _ => none
  let changeDetectionStrategy : Option Nat :=
    match dirMeta with
    | .component _ changeDetection _ _ _ => changeDetection
    | .directive _ => none
  let (viewProviders, entryComponentsFromViewProviders) ←
    match dirMeta with
    | .component _ _ (some vps) _ _ =>
        _getProvidersMetadata env vps
          (some ("viewProviders for \"" ++ stringifyRef directiveType ++ "\""))
    | _ => .ok ([], [])
  let entryComponentMetadata : List CompileIdent ←
    match dirMeta with
    | .component _ _ _ (some ecs) _ =>
        .ok ((flattenAndDedupeArray ecs).map _getIdentifierMetadata ++
          entryComponentsFromViewProviders)
    | _ => .ok entryComponentsFromViewProviders
  let selector : Option String ←
    match dirMeta with
    | .component _ _ _ _ _ =>
        if strTruthy common.selector then .ok common.selector
        else .ok (some env.defaultComponentElementName)
    | .directive _ =>
        if strTruthy common.selector then .ok common.selector
        else
          .error (.message ("Directive " ++ stringifyRef directiveType ++
            " has no selector, please add it!"))
  let (providers, entryComponentsFromProviders) ←
    match common.providers with
    | some ps =>
        _getProvidersMetadata env ps
          (some ("providers for \"" ++ stringifyRef directiveType ++ "\""))
    | none => .ok ([], [])
  let entryComponentMetadata := entryComponentMetadata ++ entryComponentsFromProviders
  let (queries, viewQueries) ←
    match common.queries with
    | some qs => do
        let queries ← _getQueriesMetadata false directiveType qs
        let viewQueries ← _getQueriesMetadata true directiveType qs
        .ok (queries, viewQueries)
    | none => .ok ([], [])
  let type ← _getTypeMetadata env directiveType none
  let metadata := createCompileDirectiveMetadata type
    nonNormalizedTemplateMetadata.isSome selector common.exportAs changeDetectionStrategy
    common.inputs common.outputs common.host providers viewProviders queries viewQueries
    entryComponentMetadata nonNormalizedTemplateMetadata
  .ok (dirMeta, metadata)

/-- `_getTypeDescriptor` for a plain type: directive / pipe / module /
value. (The source's `provide`-property case cannot hold for a plain
class in this embedding.) -/
def _getTypeDescriptor (env : Env) (type : Nat) : String :=
  if env.isDirective type then "directive"
  else if env.isPipe type then "pipe"
  else if env.isNgModule type then "module"
  else "value"

/-- `_getTypeDescriptor` applied to a raw import entry (a
`ModuleWithProviders` object or an invalid value satisfies none of the
type predicates). -/
def importEntryDescriptor (env : Env) : RawImportEntry → String
  | .modType r => _getTypeDescriptor env r
  | .moduleWithProviders _ _ => "value"
  | .invalidImport _ => "value"

/-- The deferred continuation of an asynchronous component load: the data
captured by `templateMeta.asyncResult.then(createDirectiveMetadata)`. -/
structure DirectivePending where
  directiveType : Nat
  metadata : CompileDirectiveMetadata
  template : CompileTemplateMetadata

/-- The normalize request `_loadDirectiveMetadata` assembles for the
external `DirectiveNormalizer`. -/
def buildNormalizeRequest (directiveType : Nat) (moduleUrl : String)
    (tpl : CompileTemplateMetadata) : NormalizeRequest :=
  { componentType := directiveType, moduleUrl, encapsulation := tpl.encapsulation,
    template := tpl.template, templateUrl := tpl.templateUrl, styles := tpl.styles,
    styleUrls := tpl.styleUrls, animations := tpl.animations,
    interpolation := tpl.interpolation }

/-- The `createDirectiveMetadata` closure of `_loadDirectiveMetadata`:
finalizes the metadata with the normalized template and caches both the
metadata and its summary. -/
def createDirectiveMetadata (directiveType : Nat) (metadata : CompileDirectiveMetadata)
    (templateMetadata : Option CompileTemplateMetadata) : ResM CompileDirectiveMetadata := do
  let normalizedDirMeta : CompileDirectiveMetadata := { metadata with template := templateMetadata }
  modifyR (fun st =>
    { st with directiveCache := alSet st.directiveCache directiveType normalizedDirMeta })
  modifyR (fun st =>
    { st with
      directiveSummaryCache :=
        alSet st.directiveSummaryCache directiveType normalizedDirMeta.toSummary })
  pure normalizedDirMeta

/-- `_loadDirectiveMetadata`: cache hit is a no-op; a component's template
is normalized (synchronously or deferred), a deferred result under
forced-synchronous mode throws `ComponentStillLoadingError`, a deferred
result otherwise returns the pending continuation; plain directives
finalize with a null template. -/
def _loadDirectiveMetadata (env : Env) (directiveType : Nat) (isSync : Bool) :
    ResM (Option DirectivePending) := do
  let st ← getR
  if (alGet st.directiveCache directiveType).isSome then
    pure none
  else do
    let (annot, metadata) ← liftE (getNonNormalizedDirectiveMetadata env directiveType)
    if metadata.isComponent then
      match metadata.template with
    | some tpl => do
        let moduleUrl ← liftE (componentModuleUrl env directiveType annot)
        let templateMeta := env.normalizeTemplate
          (buildNormalizeRequest directiveType moduleUrl tpl)
        match templateMeta with
        | .sync t => do
            let _ ← createDirectiveMetadata directiveType metadata (some t)
            pure none
        | .async t =>
            if isSync then throwR (.componentStillLoading directiveType)
            else pure (some { directiveType, metadata, template := t })
    | none =>
        -- unreachable: `isComponent` is `template.isSome` by construction in
        -- `getNonNormalizedDirectiveMetadata`
        throwR (.message ("internal"))
    else do
      let _ ← createDirectiveMetadata directiveType metadata none
      pure none

/-- Running the registered continuation once the deferred template
resolves: `asyncResult.then(createDirectiveMetadata)`. -/
def completePendingDirective (p : DirectivePending) : ResM CompileDirectiveMetadata :=
  createDirectiveMetadata p.directiveType p.metadata (some p.template)

/-- `getDirectiveMetadata`: cache miss is an illegal-state diagnostic. -/
def getDirectiveMetadata (directiveType : Nat) : ResM CompileDirectiveMetadata := do
  let st ← getR
  match alGet st.directiveCache directiveType with
  | some dirMeta => pure dirMeta
  | none =>
      throwR (.message ("Illegal state: getDirectiveMetadata can only be called after loadNgModuleMetadata for a module that declares it. Directive " ++
        stringifyRef directiveType ++ "."))

/-- `getDirectiveSummary`. -/
def getDirectiveSummary (dirType : Nat) : ResM CompileDirectiveSummary := do
  let st ← getR
  match alGet st.directiveSummaryCache dirType with
  | some dirSummary => pure dirSummary
  | none =>
      throwR (.message ("Illegal state: getDirectiveSummary can only be called after loadNgModuleMetadata for a module that imports it. Directive " ++
        stringifyRef dirType ++ "."))

/-- `getPipeMetadata`. -/
def getPipeMetadata (pipeType : Nat) : ResM CompilePipeMetadata := do
  let st ← getR
  match alGet st.pipeCache pipeType with
  | some pipeMeta => pure pipeMeta
  | none =>
      throwR (.message ("Illegal state: getPipeMetadata can only be called after loadNgModuleMetadata for a module that declares it. Pipe " ++
        stringifyRef pipeType ++ "."))

/-- `getPipeSummary`. -/
def getPipeSummary (pipeType : Nat) : ResM CompilePipeSummary := do
  let st ← getR
  match alGet st.pipeSummaryCache pipeType with
  | some pipeSummary => pure pipeSummary
  | none =>
      throwR (.message ("Illegal state: getPipeSummary can only be called after loadNgModuleMetadata for a module that imports it. Pipe " ++
        stringifyRef pipeType ++ "."))

/-- `getNgModuleMetadata`. -/
def getNgModuleMetadata (moduleType : Nat) : ResM CompileNgModuleMetadata := do
  let st ← getR
  match alGet st.ngModuleCache moduleType with
  | some modMeta => pure modMeta
  | none =>
      throwR (.message ("Illegal state: getNgModuleMetadata can only be called after loadNgModuleMetadata. Module " ++
        stringifyRef moduleType ++ "."))

/-- `_loadPipeMetadata`: resolves the annotation, builds the pipe metadata
and caches it and its summary. -/
def _loadPipeMetadata (env : Env) (pipeType : Nat) : ResM CompilePipeMetadata := do
  let pipeAnnotVal ← liftE (pipeResolverResolve env pipeType)
  let type ← liftE (_getTypeMetadata env pipeType none)
  let pipeMeta : CompilePipeMetadata :=
    { type, name := pipeAnnotVal.name, pure := pipeAnnotVal.pure }
  modifyR (fun st => { st with pipeCache := alSet st.pipeCache pipeType pipeMeta })
  modifyR (fun st =>
    { st with pipeSummaryCache := alSet st.pipeSummaryCache pipeType pipeMeta.toSummary })
  pure pipeMeta

/-- `getOrLoadPipeMetadata`. -/
def getOrLoadPipeMetadata (env : Env) (pipeType : Nat) : ResM CompilePipeMetadata := do
  let st ← getR
  match alGet st.pipeCache pipeType with
  | some pipeMeta => pure pipeMeta
  | none => _loadPipeMetadata env pipeType

/-- The `DirectiveInTwoModules` diagnostic text of `_addTypeToModule`. -/
def declaredInTwoModulesMsg (type oldModule moduleType : Nat) : String :=
  "Type " ++ stringifyRef type ++ " is part of the declarations of 2 modules: " ++
  stringifyRef oldModule ++ " and " ++ stringifyRef moduleType ++
  "! Please consider moving " ++ stringifyRef type ++
  " to a higher module that imports " ++ stringifyRef oldModule ++ " and " ++
  stringifyRef moduleType ++ ". You can also create a new NgModule that exports and includes " ++
  stringifyRef type ++ " then import that NgModule in " ++ stringifyRef oldModule ++ " and " ++
  stringifyRef moduleType ++ "."

/-- `_addTypeToModule`: a type already claimed by a different module is the
`DirectiveInTwoModules` diagnostic; otherwise the claim is recorded. -/
def _addTypeToModule (type moduleType : Nat) : ResM Unit := do
  let st ← getR
  match alGet st.ngModuleOfTypes type with
  | some oldModule =>
      if oldModule ≠ moduleType then
        throwR (.message (declaredInTwoModulesMsg type oldModule moduleType))
      else
        modifyR (fun st2 =>
          { st2 with ngModuleOfTypes := alSet st2.ngModuleOfTypes type moduleType })
  | none =>
      modifyR (fun st2 =>
        { st2 with ngModuleOfTypes := alSet st2.ngModuleOfTypes type moduleType })

mutual

/-- `getTransitiveExportedModules`: post-order DFS over the
`exportedModules` chains, deduping visits by type, each module pushed
after its children ("Add after recursing so imported/exported modules are
before the module itself"). -/
def getTransitiveExportedModules :
    List ModuleSummary → List ModuleSummary → List Nat → List ModuleSummary × List Nat
  | [], targetModules, visitedModules => (targetModules, visitedModules)
  | ngModule :: rest, targetModules, visitedModules =>
      let (target1, visited1) := visitExportedModule ngModule targetModules visitedModules
      getTransitiveExportedModules rest target1 visited1

/-- The `modules.forEach` body of `getTransitiveExportedModules`. -/
def visitExportedModule :
    ModuleSummary → List ModuleSummary → List Nat → List ModuleSummary × List Nat
  | .mk r p e im em ed ep dl, targetModules, visitedModules =>
      if r ∈ visitedModules then (targetModules, visitedModules)
      else
        let (target1, visited1) :=
          getTransitiveExportedModules em targetModules (visitedModules ++ [r])
        (target1 ++ [ModuleSummary.mk r p e im em ed ep dl], visited1)

end

mutual

/-- `getTransitiveImportedModules`: post-order DFS over
`importedModules.concat(exportedModules)`, deduping visits by type, each
module pushed after its children. -/
def getTransitiveImportedModules :
    List ModuleSummary → List ModuleSummary → List Nat → List ModuleSummary × List Nat
  | [], targetModules, visitedModules => (targetModules, visitedModules)
  | ngModule :: rest, targetModules, visitedModules =>
      let (target1, visited1) := visitImportedModule ngModule targetModules visitedModules
      getTransitiveImportedModules rest target1 visited1

/-- The `modules.forEach` body of `getTransitiveImportedModules`. (The
source recurses once on `importedModules.concat(exportedModules)`; a
left-to-right fold over `im ++ em` is the two successive folds written
here.) -/
def visitImportedModule :
    ModuleSummary → List ModuleSummary → List Nat → List ModuleSummary × List Nat
  | .mk r p e im em ed ep dl, targetModules, visitedModules =>
      if r ∈ visitedModules then (targetModules, visitedModules)
      else
        let (target1, visited1) :=
          getTransitiveImportedModules im targetModules (visitedModules ++ [r])
        let (target2, visited2) := getTransitiveImportedModules em target1 visited1
        (target2 ++ [ModuleSummary.mk r p e im em ed ep dl], visited2)

end

mutual

/-- One compiled provider entry under `flattenArray`: the compiled entry
for a nested provider array is a JavaScript array, so flattening recurses
into it; other entries stay. -/
def flattenProviderEntry : ProviderEntry → List ProviderEntry
  | .provider p => [.provider p]
  | .typeProv t => [.typeProv t]
  | .nested ps => flattenProviderEntries ps

/-- `flattenArray` as it acts on compiled provider lists. -/
def flattenProviderEntries : List ProviderEntry → List ProviderEntry
  | [] => []
  | e :: rest => flattenProviderEntry e ++ flattenProviderEntries rest

end

/-- JavaScript `Set.add` on a visited set kept as an insertion-ordered
list. -/
def setAdd (s : List Nat) (x : Nat) : List Nat := if x ∈ s then s else s ++ [x]

/-- Modelled from the spec: the `TransitiveCompileNgModuleMetadata`
constructor (external `compile_metadata.ts`) stores the six lists and
seeds `directivesSet` / `pipesSet` from the directive / pipe identifier
lists. -/
def mkTransitiveMeta (modules : List ModuleSummary) (providers : List ProviderEntry)
    (entryComponents : List CompileIdent) (directives : List CompileIdent)
    (pipes : List CompileIdent) (directiveLoaders : List (Nat × Bool)) : TransitiveMeta :=
  { modules, providers, entryComponents, directives,
    directivesSet := directives.foldl (fun s d => setAdd s d.reference) [],
    pipes, pipesSet := pipes.foldl (fun s p => setAdd s p.reference) [],
    directiveLoaders }

/-- `_getTransitiveNgModuleMetadata`: providers/entry components from the
both-directions closure over imported and exported modules;
directives/pipes/loaders from the exported-modules closure over the
imports. -/
def _getTransitiveNgModuleMetadata (importedModules exportedModules : List ModuleSummary) :
    TransitiveMeta :=
  let (transitiveModules, _) :=
    getTransitiveImportedModules (importedModules ++ exportedModules) [] []
  let providers :=
    flattenProviderEntries (transitiveModules.map ModuleSummary.providers).flatten
  let entryComponents := (transitiveModules.map ModuleSummary.entryComponents).flatten
  let (transitiveExportedModules, _) := getTransitiveExportedModules importedModules [] []
  let directives := (transitiveExportedModules.map ModuleSummary.exportedDirectives).flatten
  let pipes := (transitiveExportedModules.map ModuleSummary.exportedPipes).flatten
  let directiveLoaders := (transitiveExportedModules.map ModuleSummary.directiveLoaders).flatten
  mkTransitiveMeta transitiveModules providers entryComponents directives pipes directiveLoaders

/-- Modelled from the spec: `CompileNgModuleMetadata.toSummary` (external
`compile_metadata.ts`) projects the summary the transitive algorithm
traverses. -/
def CompileNgModuleMetadata.toSummary (meta : CompileNgModuleMetadata) : ModuleSummary :=
  .mk meta.type.reference meta.providers meta.entryComponents meta.importedModules
    meta.exportedModules meta.exportedDirectives meta.exportedPipes
    meta.transitiveModule.directiveLoaders

/-- Modelled from the spec: `CompileNgModuleMetadata.toInjectorSummary`
keeps only the injector-relevant part (type, providers, entry components,
imported/exported modules). -/
def CompileNgModuleMetadata.toInjectorSummary (meta : CompileNgModuleMetadata) : ModuleSummary :=
  .mk meta.type.reference meta.providers meta.entryComponents meta.importedModules
    meta.exportedModules [] [] []

/-- The `meta.declarations` loop of `_loadNgModuleMetadata`: classify each
declared type as directive (register the declaring module, push a lazy
loader) or pipe (register and eagerly load), failing on anything else.
The transitive aggregate and the declared lists accumulate in
declaration order. -/
def processDeclarations (env : Env) (moduleType : Nat) (isSync : Bool) :
    List RawTypeEntry → TransitiveMeta → List CompileIdent → List CompileIdent →
    ResM (TransitiveMeta × List CompileIdent × List CompileIdent)
  | [], tm, declaredDirectives, declaredPipes => pure (tm, declaredDirectives, declaredPipes)
  | declaredType :: rest, tm, declaredDirectives, declaredPipes => do
      match declaredType with
      | .invalidType tag =>
          throwR (.message ("Unexpected value '" ++ stringifyTypeEntry (.invalidType tag) ++
            "' declared by the module '" ++ stringifyRef moduleType ++ "'"))
      | .validType r =>
          let declaredIdentifier := _getIdentifierMetadata r
          if env.isDirective r then do
            let tm2 := { tm with directivesSet := setAdd tm.directivesSet r,
                                 directives := tm.directives ++ [declaredIdentifier] }
            _addTypeToModule r moduleType
            let tm3 := { tm2 with directiveLoaders := tm2.directiveLoaders ++ [(r, isSync)] }
            processDeclarations env moduleType isSync rest tm3
              (declaredDirectives ++ [declaredIdentifier]) declaredPipes
          else if env.isPipe r then do
            let tm2 := { tm with pipesSet := setAdd tm.pipesSet r,
                                 pipes := tm.pipes ++ [declaredIdentifier] }
            _addTypeToModule r moduleType
            let _ ← _loadPipeMetadata env r
            processDeclarations env moduleType isSync rest tm2
              declaredDirectives (declaredPipes ++ [declaredIdentifier])
          else
            throwR (.message ("Unexpected " ++ _getTypeDescriptor env r ++ " '" ++
              stringifyRef r ++ "' declared by the module '" ++ stringifyRef moduleType ++ "'"))

/-- The pending-export classification loop of `_loadNgModuleMetadata`: an
exported non-module identifier found in the transitive directives set is
an exported directive, one found in the pipes set an exported pipe,
anything else the `UndeclaredExport` diagnostic. -/
def classifyExports (env : Env) (moduleType : Nat) (tm : TransitiveMeta) :
    List CompileIdent → Except CompileError (List CompileIdent × List CompileIdent)
  | [] => .ok ([], [])
  | exportedId :: rest =>
      if exportedId.reference ∈ tm.directivesSet then do
        let (ds, ps) ← classifyExports env moduleType tm rest
        .ok (exportedId :: ds, ps)
      else if exportedId.reference ∈ tm.pipesSet then do
        let (ds, ps) ← classifyExports env moduleType tm rest
        .ok (ds, exportedId :: ps)
      else
        .error (.message ("Can't export " ++ _getTypeDescriptor env exportedId.reference ++
          " " ++ stringifyRef exportedId.reference ++ " from " ++ stringifyRef moduleType ++
          " as it was neither declared nor imported!"))

/-- The `meta.bootstrap` loop: each entry must be a valid type and becomes
type metadata (folded into the bootstrap-component identifier list). -/
def processBootstrap (env : Env) (moduleType : Nat) :
    List RawTypeEntry → Except CompileError (List CompileIdent)
  | [] => .ok []
  | .invalidType tag :: _ =>
      .error (.message ("Unexpected value '" ++ stringifyTypeEntry (.invalidType tag) ++
        "' used in the bootstrap property of module '" ++ stringifyRef moduleType ++ "'"))
  | .validType r :: rest => do
      let t ← _getTypeMetadata env r none
      let res ← processBootstrap env moduleType rest
      .ok (⟨t.reference⟩ :: res)

/-- The `meta.entryComponents` mapping: each type becomes type metadata,
kept as its identifier. -/
def processEntryComponents (env : Env) :
    List Nat → Except CompileError (List CompileIdent)
  | [] => .ok []
  | r :: rest => do
      let t ← _getTypeMetadata env r none
      let res ← processEntryComponents env rest
      .ok (⟨t.reference⟩ :: res)

mutual

/-- `_loadNgModuleMetadata`: cache hit returns the cached record; an absent
annotation returns nothing (or throws when demanded); otherwise imports
and exports are resolved recursively to summaries, the transitive
aggregate is built, declarations are classified, pending exports checked,
and the module's own providers/entry components are appended after the
transitive ones ("The providers of the module have to go last so that
they overwrite any other provider we already added"). `fuel` bounds the
recursion depth the source leaves unguarded against import cycles (every
function of this group consumes one unit per step, so the Nat recursion
is structural); a large enough fuel never runs out on an acyclic graph. -/
def _loadNgModuleMetadata (env : Env) :
    Nat → Nat → Bool → Bool → ResM (Option CompileNgModuleMetadata)
  | 0, _, _, _ => throwR .fuelExhausted
  | fuel + 1, moduleType, isSync, throwIfNotFound => do
      let st ← getR
      match alGet st.ngModuleCache moduleType with
      | some compileMeta => pure (some compileMeta)
      | none => do
          match ← liftE (ngModuleResolverResolve env moduleType throwIfNotFound) with
          | none => pure none
          | some meta => do
              let (importedModules, importProviders, importEntryComponents) ←
                processImports env fuel moduleType isSync
                  (flattenAndDedupeArray (meta.imports.getD []))
              let (exportedModules, exportedNonModuleIdentifiers) ←
                processExports env fuel moduleType isSync
                  (flattenAndDedupeArray (meta.exports.getD []))
              -- Note: This will be modified later, so we rely on getting a new
              -- instance every time!
              let transitiveModule :=
                _getTransitiveNgModuleMetadata importedModules exportedModules
              let (tm2, declaredDirectives, declaredPipes) ←
                processDeclarations env moduleType isSync
                  (flattenAndDedupeArray (meta.declarations.getD [])) transitiveModule [] []
              let (exportedDirectives, exportedPipes) ←
                liftE (classifyExports env moduleType tm2 exportedNonModuleIdentifiers)
              -- The providers of the module have to go last so that they
              -- overwrite any other provider we already added.
              let (ownProviders, ownEntryComponents) ←
                match meta.providers with
                | some ps =>
                    liftE (_getProvidersMetadata env ps
                      (some ("provider for the NgModule '" ++ stringifyRef moduleType ++ "'")))
                | none => pure ([], [])
              let providers := importProviders ++ ownProviders
              let entryComponents1 := importEntryComponents ++ ownEntryComponents
              let entryComponents2 ←
                liftE (processEntryComponents env
                  (flattenAndDedupeArray (meta.entryComponents.getD [])))
              let bootstrapComponents ←
                liftE (processBootstrap env moduleType
                  (flattenAndDedupeArray (meta.bootstrap.getD [])))
              let entryComponents := entryComponents1 ++ entryComponents2 ++ bootstrapComponents
              let schemas := flattenAndDedupeArray (meta.schemas.getD [])
              let tm3 := { tm2 with entryComponents := tm2.entryComponents ++ entryComponents,
                                    providers := tm2.providers ++ providers }
              let type ← liftE (_getTypeMetadata env moduleType none)
              let compileMeta2 : CompileNgModuleMetadata :=
                { type, providers, entryComponents, bootstrapComponents, schemas,
                  declaredDirectives, exportedDirectives, declaredPipes, exportedPipes,
                  importedModules, exportedModules, transitiveModule := tm3, id := meta.id }
              -- `transitiveModule.modules.push(compileMeta.toInjectorSummary())`
              -- mutates the aggregate held by the record just built; with
              -- immutable records the push is replayed into the stored copy.
              let tm4 := { tm3 with
                modules := tm3.modules ++ [compileMeta2.toInjectorSummary] }
              let compileMeta3 := { compileMeta2 with transitiveModule := tm4 }
              modifyR (fun st2 =>
                { st2 with ngModuleCache := alSet st2.ngModuleCache moduleType compileMeta3 })
              pure (some compileMeta3)
termination_by structural fuel _ _ _ => fuel

/-- `_loadNgModuleSummary`. -/
def _loadNgModuleSummary (env : Env) : Nat → Nat → Bool → ResM (Option ModuleSummary)
  | 0, _, _ => throwR .fuelExhausted
  | fuel + 1, moduleType, isSync => do
      let moduleMeta ← _loadNgModuleMetadata env fuel moduleType isSync false
      pure (moduleMeta.map CompileNgModuleMetadata.toSummary)
termination_by structural fuel _ _ => fuel

/-- The `meta.imports` loop: a type imports a module summary; a
`ModuleWithProviders` merges its extra providers (and collected entry
components) first, then imports its module; anything else (or a
non-module type) is an `InvalidImport` diagnostic. -/
def processImports (env : Env) :
    Nat → Nat → Bool → List RawImportEntry →
    ResM (List ModuleSummary × List ProviderEntry × List CompileIdent)
  | 0, _, _, _ => throwR .fuelExhausted
  | fuel + 1, moduleType, isSync, entries =>
      match entries with
      | [] => pure ([], [], [])
      | importedType :: rest => do
          let (importedModuleType, provs1, ecs1) ←
            match importedType with
            | .modType r => pure (some r, ([] : List ProviderEntry), ([] : List CompileIdent))
            | .moduleWithProviders ngModule providersOpt =>
                (match providersOpt with
                | some ps => do
                    let (entries2, ids) ←
                      liftE (_getProvidersMetadata env ps
                        (some ("provider for the NgModule '" ++ stringifyRef ngModule ++ "'")))
                    pure (some ngModule, entries2, ids)
                | none => pure (some ngModule, [], []))
            | .invalidImport _ => pure ((none : Option Nat), [], [])
          match importedModuleType with
          | some r => do
              let importedModuleSummary ← _loadNgModuleSummary env fuel r isSync
              match importedModuleSummary with
              | none =>
                  throwR (.message ("Unexpected " ++ importEntryDescriptor env importedType ++
                    " '" ++ stringifyImportEntry importedType ++ "' imported by the module '" ++
                    stringifyRef moduleType ++ "'"))
              | some s => do
                  let (sums, provs, ecs) ← processImports env fuel moduleType isSync rest
                  pure (s :: sums, provs1 ++ provs, ecs1 ++ ecs)
          | none =>
              throwR (.message ("Unexpected value '" ++ stringifyImportEntry importedType ++
                "' imported by the module '" ++ stringifyRef moduleType ++ "'"))
termination_by structural fuel _ _ _ => fuel

/-- The `meta.exports` loop: an exported module contributes its summary, a
valid non-module type is held as a pending export identifier, anything
else is an `InvalidExport` diagnostic. -/
def processExports (env : Env) :
    Nat → Nat → Bool → List RawTypeEntry → ResM (List ModuleSummary × List CompileIdent)
  | 0, _, _, _ => throwR .fuelExhausted
  | fuel + 1, moduleType, isSync, entries =>
      match entries with
      | [] => pure ([], [])
      | exportedType :: rest =>
          match exportedType with
          | .invalidType tag =>
              throwR (.message ("Unexpected value '" ++ stringifyTypeEntry (.invalidType tag) ++
                "' exported by the module '" ++ stringifyRef moduleType ++ "'"))
          | .validType r => do
              let exportedModuleSummary ← _loadNgModuleSummary env fuel r isSync
              let (sums, ids) ← processExports env fuel moduleType isSync rest
              match exportedModuleSummary with
              | some s => pure (s :: sums, ids)
              | none => pure (sums, _getIdentifierMetadata r :: ids)
termination_by structural fuel _ _ _ => fuel

end

/-- Invoking the lazy directive loaders of a resolved module
(`Promise.all(...directiveLoaders.map(loader => loader()))`); the results
are the still-deferred completions. -/
def runDirectiveLoaders (env : Env) :
    List (Nat × Bool) → ResM (List (Option DirectivePending))
  | [] => pure []
  | (d, isSync) :: rest => do
      let r ← _loadDirectiveMetadata env d isSync
      let res ← runDirectiveLoaders env rest
      pure (r :: res)

/-- `loadNgModuleMetadata` (public): resolves the module, then kicks off
every declared directive's lazy loader. -/
def loadNgModuleMetadata (env : Env) (fuel : Nat) (moduleType : Nat) (isSync : Bool)
    (throwIfNotFound : Bool) :
    ResM (Option CompileNgModuleMetadata × List (Option DirectivePending)) := do
  let ngModule ← _loadNgModuleMetadata env fuel moduleType isSync throwIfNotFound
  match ngModule with
  | some m => do
      let pendings ← runDirectiveLoaders env m.transitiveModule.directiveLoaders
      pure (some m, pendings)
  | none => pure (none, [])

/-- `getUnloadedNgModuleMetadata`. -/
def getUnloadedNgModuleMetadata (env : Env) (fuel : Nat) (moduleType : Nat) (isSync : Bool)
    (throwIfNotFound : Bool) : ResM (Option CompileNgModuleMetadata) :=
  _loadNgModuleMetadata env fuel moduleType isSync throwIfNotFound

/-- `clearCacheFor`: deletes the type from the four directive/pipe caches
and the type-to-module map, and clears the entire module cache ("Clear
all of the NgModule as they contain transitive information!"). The
external normalizer's own cache clear has no effect on this state. -/
def clearCacheFor (type : Nat) : ResM Unit :=
  modifyR (fun st =>
    { st with directiveCache := alDelete st.directiveCache type,
              directiveSummaryCache := alDelete st.directiveSummaryCache type,
              pipeCache := alDelete st.pipeCache type,
              pipeSummaryCache := alDelete st.pipeSummaryCache type,
              ngModuleOfTypes := alDelete st.ngModuleOfTypes type,
              ngModuleCache := [] })

/-- `clearCache`: empties every cache. -/
def clearCache : ResM Unit :=
  modifyR (fun _ => emptyState)

/-- The public operations a resolver client can run, for stating
whole-history invariants. -/
inductive ResolverOp where
  | loadModule (fuel : Nat) (m : Nat) (isSync throwIfNotFound : Bool)
  | getUnloadedModule (fuel : Nat) (m : Nat) (isSync throwIfNotFound : Bool)
  | loadDirective (d : Nat) (isSync : Bool)
  | completeDirective (p : DirectivePending)
  | loadPipe (p : Nat)
  | getOrLoadPipe (p : Nat)
  | clearFor (t : Nat)
  | clearAll

/-- The state reached after one operation (its result discarded; a thrown
diagnostic leaves the state as of the throw). -/
def runOp (env : Env) : ResolverOp → ResolverState → ResolverState
  | .loadModule fuel m isSync tif, st => (loadNgModuleMetadata env fuel m isSync tif st).2
  | .getUnloadedModule fuel m isSync tif, st =>
      (getUnloadedNgModuleMetadata env fuel m isSync tif st).2
  | .loadDirective d isSync, st => (_loadDirectiveMetadata env d isSync st).2
  | .completeDirective p, st => (completePendingDirective p st).2
  | .loadPipe p, st => (_loadPipeMetadata env p st).2
  | .getOrLoadPipe p, st => (getOrLoadPipeMetadata env p st).2
  | .clearFor t, st => (clearCacheFor t st).2
  | .clearAll, st => (clearCache st).2

/-- The state after a sequence of operations. -/
def execOps (env : Env) : List ResolverOp → ResolverState → ResolverState
  | [], st => st
  | op :: rest, st => execOps env rest (runOp env op st)

/-! Concrete environments and expected values used by the theorems below. -/

/-- An empty normalized template. -/
def emptyTemplateMeta : CompileTemplateMetadata :=
  { encapsulation := none, template := none, templateUrl := none, styles := [],
    styleUrls := [], animations := none, interpolation := none }

/-- An environment with no registered types: every predicate false, every
annotation reader empty. -/
def emptyEnv : Env :=
  { isDirective := fun _ => false, isPipe := fun _ => false, isNgModule := fun _ => false,
    directiveAnnot := fun _ => none, pipeAnnot := fun _ => none, moduleAnnot := fun _ => none,
    parameters := fun _ => none, hasLifecycleHook := fun _ _ => false,
    defaultComponentElementName := "ng-component",
    normalizeTemplate := fun _ => .sync emptyTemplateMeta,
    importUri := fun r => "uri" ++ toString r }

/-- A module annotation with every list absent. -/
def emptyRawModule : RawModule :=
  { imports := none, exports := none, declarations := none, providers := none,
    entryComponents := none, bootstrap := none, schemas := none, id := none }

/-- Whether a compiled token is a plain string token. -/
def isStringToken : CompileToken → Bool
  | .value _ => true
  | .identifier _ => false

/-- Whether an `Inject` marker occurs after an `Attribute` marker in a
composite parameter (the seed records whether an attribute was already
seen). -/
def injectAfterAttribute : Bool → List ParamEntry → Bool
  | _, [] => false
  | seenAttr, .inject _ :: rest => seenAttr || injectAfterAttribute seenAttr rest
  | _, .attribute _ :: rest => injectAfterAttribute true rest
  | seenAttr, _ :: rest => injectAfterAttribute seenAttr rest

/-- A parameter in which no `Inject` marker occurs after an `Attribute`
marker (the regime in which the attribute's string token survives the
scan). -/
def paramAttrSafe : RawParam → Bool
  | .single _ => true
  | .composite es => !injectAfterAttribute false es

/-- A plain `{provide: token, useValue: value}` provider literal. -/
def valueProvider (t : RawToken) (v : RawValue) : RawProvider :=
  .literal t none (some v) none none none false

/-- The compiled form of `valueProvider`. -/
def compiledValueProvider (t : RawToken) (v : RawValue) : CompileProvider :=
  { token := _getTokenMetadata t, useClass := none,
    useValue := some (convertToCompileValue v).1, useFactory := none,
    useExisting := none, deps := none, multi := false }

/-- A list of value providers from token/value pairs. -/
def valueProviders (tvs : List (RawToken × RawValue)) : List RawProvider :=
  tvs.map (fun tv => valueProvider tv.1 tv.2)

/-- The compiled provider entries for `valueProviders`. -/
def compiledValueProviders (tvs : List (RawToken × RawValue)) : List ProviderEntry :=
  tvs.map (fun tv => .provider (compiledValueProvider tv.1 tv.2))

/-- The token is not the reserved entry-components collector token. -/
def notAnalyze (t : RawToken) : Prop :=
  tokenReference (_getTokenMetadata t) ≠ some analyzeForEntryComponentsRef

/-- One step of a last-writer-wins provider resolution: a later provider
for the token replaces the accumulator. -/
def providerStep (t : CompileToken) (acc : Option CompileProvider) :
    ProviderEntry → Option CompileProvider
  | .provider p => if p.token = t then some p else acc
  | _ => acc

/-- Last-writer-wins resolution of a token over a provider list: the last
provider entry carrying the token. -/
def lastProviderFor (t : CompileToken) (entries : List ProviderEntry) :
    Option CompileProvider :=
  entries.foldl (providerStep t) none

/-- The type metadata of a type with no constructor parameters and no
lifecycle hooks. -/
def plainTypeMeta (r : Nat) : CompileType :=
  { reference := r, diDeps := [], lifecycleHooks := [] }

/-- Claim C1 fixture: module A (type 10) imports B and declares `pA`. -/
def c1AnnotA (pA : List RawProvider) : RawModule :=
  { emptyRawModule with imports := some [.leaf (.modType 11)], providers := some pA }

/-- Claim C1 fixture: module B (type 11) imports C and declares `pB`. -/
def c1AnnotB (pB : List RawProvider) : RawModule :=
  { emptyRawModule with imports := some [.leaf (.modType 12)], providers := some pB }

/-- Claim C1 fixture: module C (type 12) declares `pC`. -/
def c1AnnotC (pC : List RawProvider) : RawModule :=
  { emptyRawModule with providers := some pC }

/-- Claim C1 fixture: the environment for the import chain A → B → C, with
the three modules' provider lists as parameters. -/
def c1Env (pA pB pC : List RawProvider) : Env :=
  { emptyEnv with
    isNgModule := fun r => r == 10 || r == 11 || r == 12,
    moduleAnnot := fun r =>
      if r == 10 then some (c1AnnotA pA)
      else if r == 11 then some (c1AnnotB pB)
      else if r == 12 then some (c1AnnotC pC)
      else none }

/-- The resolved metadata of module C in the C1 chain. -/
def c1MetaC (tvsC : List (RawToken × RawValue)) : CompileNgModuleMetadata :=
  { type := plainTypeMeta 12,
    providers := compiledValueProviders tvsC,
    entryComponents := [], bootstrapComponents := [], schemas := [],
    declaredDirectives := [], exportedDirectives := [], declaredPipes := [],
    exportedPipes := [], importedModules := [], exportedModules := [],
    transitiveModule :=
      { modules := [.mk 12 (compiledValueProviders tvsC) [] [] [] [] [] []],
        providers := compiledValueProviders tvsC,
        entryComponents := [], directives := [], directivesSet := [],
        pipes := [], pipesSet := [], directiveLoaders := [] },
    id := none }

/-- The summary of module C in the C1 chain. -/
def c1SumC (tvsC : List (RawToken × RawValue)) : ModuleSummary :=
  .mk 12 (compiledValueProviders tvsC) [] [] [] [] [] []

/-- The resolved metadata of module B in the C1 chain. -/
def c1MetaB (tvsB tvsC : List (RawToken × RawValue)) : CompileNgModuleMetadata :=
  { type := plainTypeMeta 11,
    providers := compiledValueProviders tvsB,
    entryComponents := [], bootstrapComponents := [], schemas := [],
    declaredDirectives := [], exportedDirectives := [], declaredPipes := [],
    exportedPipes := [], importedModules := [c1SumC tvsC], exportedModules := [],
    transitiveModule :=
      { modules := [c1SumC tvsC, .mk 11 (compiledValueProviders tvsB) [] [c1SumC tvsC] [] [] [] []],
        providers := compiledValueProviders tvsC ++ compiledValueProviders tvsB,
        entryComponents := [], directives := [], directivesSet := [],
        pipes := [], pipesSet := [], directiveLoaders := [] },
    id := none }

/-- The summary of module B in the C1 chain. -/
def c1SumB (tvsB tvsC : List (RawToken × RawValue)) : ModuleSummary :=
  .mk 11 (compiledValueProviders tvsB) [] [c1SumC tvsC] [] [] [] []

/-- The transitive aggregate of module B before its own contributions. -/
def c1TransB (tvsC : List (RawToken × RawValue)) : TransitiveMeta :=
  { modules := [c1SumC tvsC], providers := compiledValueProviders tvsC,
    entryComponents := [], directives := [], directivesSet := [],
    pipes := [], pipesSet := [], directiveLoaders := [] }

/-- The transitive aggregate of module A before its own contributions. -/
def c1TransA (tvsB tvsC : List (RawToken × RawValue)) : TransitiveMeta :=
  { modules := [c1SumC tvsC, c1SumB tvsB tvsC],
    providers := compiledValueProviders tvsC ++ compiledValueProviders tvsB,
    entryComponents := [], directives := [], directivesSet := [],
    pipes := [], pipesSet := [], directiveLoaders := [] }

/-- The resolved metadata of module A in the C1 chain: the transitive
provider list is C's, then B's, then A's own. -/
def c1MetaA (tvsA tvsB tvsC : List (RawToken × RawValue)) : CompileNgModuleMetadata :=
  { type := plainTypeMeta 10,
    providers := compiledValueProviders tvsA,
    entryComponents := [], bootstrapComponents := [], schemas := [],
    declaredDirectives := [], exportedDirectives := [], declaredPipes := [],
    exportedPipes := [], importedModules := [c1SumB tvsB tvsC], exportedModules := [],
    transitiveModule :=
      { modules := [c1SumC tvsC, c1SumB tvsB tvsC,
          .mk 10 (compiledValueProviders tvsA) [] [c1SumB tvsB tvsC] [] [] [] []],
        providers :=
          (compiledValueProviders tvsC ++ compiledValueProviders tvsB) ++
            compiledValueProviders tvsA,
        entryComponents := [], directives := [], directivesSet := [],
        pipes := [], pipesSet := [], directiveLoaders := [] },
    id := none }

/-- Claim C2 fixture: a module declaring pipe 21 and then an invalid
value. -/
def c2Annot : RawModule :=
  { emptyRawModule with
    declarations := some [.leaf (.validType 21), .leaf (.invalidType 99)] }

/-- Claim C2 fixture: module 20 declares pipe 21 (with the given name and
purity) followed by an invalid declaration. -/
def c2Env (nm : String) (pr : Bool) : Env :=
  { emptyEnv with
    isPipe := fun r => r == 21,
    pipeAnnot := fun r => if r == 21 then some { name := nm, pure := pr } else none,
    moduleAnnot := fun r => if r == 20 then some c2Annot else none }

/-- The pipe metadata the failing C2 resolution caches before it throws. -/
def c2PipeMeta (nm : String) (pr : Bool) : CompilePipeMetadata :=
  { type := plainTypeMeta 21, name := nm, pure := pr }

/-- The state left behind by the failing C2 resolution: the pipe caches and
the type-to-module map are modified, the module cache is not. -/
def c2ExpectedState (nm : String) (pr : Bool) : ResolverState :=
  { emptyState with
    pipeCache := [(21, c2PipeMeta nm pr)],
    pipeSummaryCache := [(21, (c2PipeMeta nm pr).toSummary)],
    ngModuleOfTypes := [(21, 20)] }

/-- Claim C5 fixture: a module declaring only the type `d`. -/
def c5Annot (d : Nat) : RawModule :=
  { emptyRawModule with declarations := some [.leaf (.validType d)] }

/-- Claim C5 fixture: module `m2` declares `d`, which is a directive (or,
with `asPipe`, a pipe). -/
def c5Env (d m2 : Nat) (asPipe : Bool) : Env :=
  { emptyEnv with
    isDirective := fun r => !asPipe && r == d,
    isPipe := fun r => asPipe && r == d,
    pipeAnnot := fun r => if asPipe && r == d then some { name := "p", pure := true } else none,
    moduleAnnot := fun r => if r == m2 then some (c5Annot d) else none }

/-- Claim C6 fixture: a module declaring directive `d` and exporting `x`. -/
def c6Annot (d x : Nat) : RawModule :=
  { emptyRawModule with
    declarations := some [.leaf (.validType d)],
    exports := some [.leaf (.validType x)] }

/-- Claim C6 fixture: module `m` declares directive `d` and exports `x`. -/
def c6Env (d x m : Nat) : Env :=
  { emptyEnv with
    isDirective := fun r => r == d,
    moduleAnnot := fun r => if r == m then some (c6Annot d x) else none }

/-- An environment whose normalizer resolves every deferred template
immediately instead: the synchronous-path comparison point of claim C7. -/
def syncifyNormalize (env : Env) : Env :=
  { env with
    normalizeTemplate := fun req =>
      match env.normalizeTemplate req with
      | .async a => .sync a
      | .sync a => .sync a }

/-- Claim C7 witness fixture: the raw template of component 30. -/
def c7Tmpl : RawTemplate :=
  { encapsulation := none, template := some "<div/>", templateUrl := none, styles := [],
    styleUrls := [], animations := none, interpolation := none, moduleId := none }

/-- Claim C7 witness fixture: the common fields of component 30. -/
def c7Common : RawDirectiveCommon :=
  { selector := some "my-comp", exportAs := none, inputs := [], outputs := [], host := [],
    providers := none, queries := none }

/-- Claim C7 witness fixture: an environment where type 30 is a component
whose template normalization is deferred. -/
def c7Env : Env :=
  { emptyEnv with
    directiveAnnot := fun r =>
      if r == 30 then some (.component c7Common none none none c7Tmpl) else none,
    normalizeTemplate := fun _ => .async emptyTemplateMeta }

/-- Claim C4 witness fixture: an environment where type 31 is a plain
directive and type 21 a pipe. -/
def c4Env : Env :=
  { emptyEnv with
    isPipe := fun r => r == 21,
    pipeAnnot := fun r => if r == 21 then some { name := "p", pure := true } else none,
    directiveAnnot := fun r =>
      if r == 31 then some (.directive c7Common) else none }

/-- The cache-pairing invariant of claim C10: the directive metadata and
summary caches hold exactly the same key set, and likewise the pipe
caches. -/
def CacheKeyInv (st : ResolverState) : Prop :=
  (∀ k, k ∈ alKeys st.directiveCache ↔ k ∈ alKeys st.directiveSummaryCache) ∧
  (∀ k, k ∈ alKeys st.pipeCache ↔ k ∈ alKeys st.pipeSummaryCache)

/-- A state transformer in the resolver monad preserves the cache-pairing
invariant. -/
def PresInv {α : Type} (m : ResM α) : Prop :=
  ∀ st, CacheKeyInv st → CacheKeyInv (m st).2

/-- A postcondition holds of every successful outcome of a resolver
computation started from `st0`. -/
def EnsuresOk {α : Type} (Q : α → ResolverState → Prop) (st0 : ResolverState)
    (m : ResM α) : Prop :=
  ∀ a st1, m st0 = (.ok a, st1) → Q a st1

/-!  Theorems: first the monad/association-list toolkit, then the
per-claim developments. -/

/-- Bind in the resolver monad, applied to a state. -/
theorem bind_apply {α β : Type} (m : ResM α) (k : α → ResM β) (st : ResolverState) :
    (m >>= k) st = (match m st with
      | (.ok a, st1) => k a st1
      | (.error e, st1) => (.error e, st1)) := rfl

/-- Pure in the resolver monad, applied to a state. -/
theorem pure_apply {α : Type} (a : α) (st : ResolverState) :
    (pure a : ResM α) st = (.ok a, st) := rfl

/-- Lifting a pure result keeps the state. -/
theorem liftE_apply {α : Type} (e : Except CompileError α) (st : ResolverState) :
    liftE e st = (e, st) := by cases e <;> rfl

/-- Reading the state. -/
theorem getR_apply (st : ResolverState) : getR st = (.ok st, st) := rfl

/-- Updating the state. -/
theorem modifyR_apply (f : ResolverState → ResolverState) (st : ResolverState) :
    modifyR f st = (.ok (), f st) := rfl

/-- Throwing keeps the state of the throw point. -/
theorem throwR_apply {α : Type} (e : CompileError) (st : ResolverState) :
    (throwR e : ResM α) st = (.error e, st) := rfl

/-- Bind on a successful pure computation. -/
theorem exceptBind_ok {α β : Type} (a : α) (k : α → Except CompileError β) :
    (Except.ok a >>= k) = k a := rfl

/-- Bind on a failed pure computation. -/
theorem exceptBind_error {α β : Type} (e : CompileError) (k : α → Except CompileError β) :
    ((Except.error e : Except CompileError α) >>= k) = .error e := rfl

/-- Looking up the key just set. -/
theorem alGet_alSet_self {α : Type} (m : List (Nat × α)) (k : Nat) (v : α) :
    alGet (alSet m k v) k = some v := by
  induction m with
  | nil => simp [alSet, alGet]
  | cons p rest ih =>
      by_cases h : p.1 = k
      · simp [alSet, alGet, h]
      · simp [alSet, alGet, h, ih]

/-- Key membership over a cons cell. -/
theorem mem_alKeys_cons {α : Type} (a : Nat) (b : α) (m : List (Nat × α)) (x : Nat) :
    x ∈ alKeys ((a, b) :: m) ↔ x = a ∨ x ∈ alKeys m := by
  simp [alKeys]

/-- The empty association list has no keys. -/
theorem mem_alKeys_nil {α : Type} (x : Nat) :
    x ∈ alKeys ([] : List (Nat × α)) ↔ False := by
  simp [alKeys]

/-- The key set after `alSet`: the key joins the existing keys. -/
theorem mem_alKeys_alSet {α : Type} (m : List (Nat × α)) (k : Nat) (v : α) (x : Nat) :
    x ∈ alKeys (alSet m k v) ↔ x = k ∨ x ∈ alKeys m := by
  induction m with
  | nil => simp [alSet, mem_alKeys_cons, mem_alKeys_nil]
  | cons p rest ih =>
      obtain ⟨a, b⟩ := p
      simp only [alSet]
      by_cases h : a = k
      · rw [if_pos h]
        subst h
        simp only [mem_alKeys_cons]
        tauto
      · rw [if_neg h]
        simp only [mem_alKeys_cons, ih]
        tauto

/-- The key set after `alDelete`: the key leaves the existing keys. -/
theorem mem_alKeys_alDelete {α : Type} (m : List (Nat × α)) (k : Nat) (x : Nat) :
    x ∈ alKeys (alDelete m k) ↔ x ∈ alKeys m ∧ x ≠ k := by
  induction m with
  | nil => simp [alDelete, mem_alKeys_nil]
  | cons p rest ih =>
      obtain ⟨a, b⟩ := p
      simp only [alDelete]
      by_cases h : a = k
      · rw [if_pos h]
        subst h
        simp only [mem_alKeys_cons, ih]
        constructor
        · rintro ⟨hx, hne⟩
          exact ⟨Or.inr hx, hne⟩
        · rintro ⟨hx | hx, hne⟩
          · exact absurd hx hne
          · exact ⟨hx, hne⟩
      · rw [if_neg h]
        simp only [mem_alKeys_cons, ih]
        constructor
        · rintro (hx | ⟨hx, hne⟩)
          · exact ⟨Or.inl hx, fun hk => h (by rw [← hx, hk])⟩
          · exact ⟨Or.inr hx, hne⟩
        · rintro ⟨hx | hx, hne⟩
          · exact Or.inl hx
          · exact Or.inr ⟨hx, hne⟩

/-- A key is present exactly when its lookup succeeds. -/
theorem alGet_isSome_iff_mem {α : Type} (m : List (Nat × α)) (k : Nat) :
    (alGet m k).isSome ↔ k ∈ alKeys m := by
  induction m with
  | nil => simp [alGet, alKeys]
  | cons p rest ih =>
      by_cases h : p.1 = k
      · simp [alGet, alKeys, h]
      · simp [alGet, alKeys, h, ih, Ne.symm h]

/-! Claim C1: value-provider compilation and the provider ordering of the
transitive module metadata over the import chain A → B → C. -/

/-- `valueProviders` over a cons cell. -/
theorem valueProviders_cons (tv : RawToken × RawValue) (tvs : List (RawToken × RawValue)) :
    valueProviders (tv :: tvs) = valueProvider tv.1 tv.2 :: valueProviders tvs := rfl

/-- The provider loop compiles a list of plain value providers to their
compiled records and collects no entry components, for any non-collector
tokens. -/
theorem providersLoop_value (env : Env) (all : List RawProvider) (dbg : Option String) :
    ∀ (tvs : List (RawToken × RawValue)) (idx : Nat),
      (∀ tv ∈ tvs, notAnalyze tv.1) →
      providersLoop env all dbg (valueProviders tvs) idx =
        .ok (compiledValueProviders tvs, [])
  | [], _, _ => rfl
  | tv :: tvs, idx, h => by
      have hna : notAnalyze tv.1 := h tv (List.mem_cons_self tv tvs)
      have ih := providersLoop_value env all dbg tvs (idx + 1)
        (fun x hx => h x (List.mem_cons_of_mem tv hx))
      rw [valueProviders_cons]
      show (do
        let (entryOpt, ids) ← compileOneProvider env all dbg (valueProvider tv.1 tv.2) idx
        let (entries, ids2) ← providersLoop env all dbg (valueProviders tvs) (idx + 1)
        Except.ok ((match entryOpt with
              | some entry => entry :: entries
              | none => entries), ids ++ ids2)) =
        Except.ok (compiledValueProviders (tv :: tvs), [])
      rw [ih]
      simp only [compileOneProvider, valueProvider]
      rw [if_neg hna]
      rfl

/-- `_getProvidersMetadata` on a list of plain value providers. -/
theorem getProvidersMetadata_value (env : Env) (dbg : Option String)
    (tvs : List (RawToken × RawValue)) (h : ∀ tv ∈ tvs, notAnalyze tv.1) :
    _getProvidersMetadata env (valueProviders tvs) dbg =
      .ok (compiledValueProviders tvs, []) := by
  unfold _getProvidersMetadata
  exact providersLoop_value env (valueProviders tvs) dbg tvs 0 h

/-- The chain environment's module annotations. -/
theorem c1Env_moduleAnnot (pA pB pC : List RawProvider) (r : Nat) :
    (c1Env pA pB pC).moduleAnnot r =
      (if r == 10 then some (c1AnnotA pA)
       else if r == 11 then some (c1AnnotB pB)
       else if r == 12 then some (c1AnnotC pC)
       else none) := rfl

/-- The chain environment reflects no constructor parameters. -/
theorem c1Env_parameters (pA pB pC : List RawProvider) (r : Nat) :
    (c1Env pA pB pC).parameters r = none := rfl

/-- The chain environment detects no lifecycle hooks. -/
theorem c1Env_hasLifecycleHook (pA pB pC : List RawProvider) (h r : Nat) :
    (c1Env pA pB pC).hasLifecycleHook h r = false := rfl

/-- The chain environment registers no directives. -/
theorem c1Env_isDirective (pA pB pC : List RawProvider) (r : Nat) :
    (c1Env pA pB pC).isDirective r = false := rfl

/-- The chain environment registers no pipes. -/
theorem c1Env_isPipe (pA pB pC : List RawProvider) (r : Nat) :
    (c1Env pA pB pC).isPipe r = false := rfl

/-- Resolving module C of the chain caches and returns `c1MetaC`. -/
theorem c1RunC (pA pB : List RawProvider) (tvsC : List (RawToken × RawValue))
    (hC : ∀ tv ∈ tvsC, notAnalyze tv.1) :
    _loadNgModuleMetadata (c1Env pA pB (valueProviders tvsC)) 6 12 true false emptyState =
      (.ok (some (c1MetaC tvsC)),
       { emptyState with ngModuleCache := [(12, c1MetaC tvsC)] }) := by
  have hprov : ∀ dbg, _getProvidersMetadata (c1Env pA pB (valueProviders tvsC))
      (valueProviders tvsC) dbg = .ok (compiledValueProviders tvsC, []) :=
    fun dbg => getProvidersMetadata_value _ dbg tvsC hC
  simp [_loadNgModuleMetadata, _loadNgModuleSummary, bind_apply, pure_apply, liftE_apply,
    getR_apply, modifyR_apply, throwR_apply, alGet, alSet, emptyState,
    ngModuleResolverResolve, c1Env_moduleAnnot, c1Env_parameters, c1Env_hasLifecycleHook,
    c1AnnotA, c1AnnotB, c1AnnotC, emptyRawModule,
    processImports, processExports, flattenAndDedupeArray, flattenArray,
    flattenTrees, flattenTree, dedupeArray, dedupeGo, _getTransitiveNgModuleMetadata,
    getTransitiveImportedModules, getTransitiveExportedModules, visitImportedModule,
    visitExportedModule, mkTransitiveMeta, setAdd,
    processDeclarations, classifyExports, processEntryComponents, processBootstrap,
    _getTypeMetadata, _getDependenciesMetadata, effectiveParams, seqOptions,
    lifecycleHooksValues, _getIdentifierMetadata, flattenProviderEntries, flattenProviderEntry,
    hprov, exceptBind_ok, exceptBind_error,
    c1MetaC, plainTypeMeta, CompileNgModuleMetadata.toInjectorSummary,
    ModuleSummary.providers, ModuleSummary.entryComponents, ModuleSummary.typeRef,
    ModuleSummary.importedModules, ModuleSummary.exportedModules,
    ModuleSummary.exportedDirectives, ModuleSummary.exportedPipes,
    ModuleSummary.directiveLoaders]

/-- `flattenProviderEntries` distributes over append. -/
theorem flattenPE_append : ∀ xs ys : List ProviderEntry,
    flattenProviderEntries (xs ++ ys) =
      flattenProviderEntries xs ++ flattenProviderEntries ys
  | [], ys => rfl
  | x :: xs, ys => by
      simp [flattenProviderEntries, flattenPE_append xs ys]

/-- Compiled value providers are flat already. -/
theorem flattenPE_cvp : ∀ tvs : List (RawToken × RawValue),
    flattenProviderEntries (compiledValueProviders tvs) = compiledValueProviders tvs
  | [] => rfl
  | tv :: tvs => by
      simp [compiledValueProviders, flattenProviderEntries, flattenProviderEntry]
      simpa [compiledValueProviders] using flattenPE_cvp tvs

/-- Projections of the C summary. -/
theorem c1SumC_providers (tvs : List (RawToken × RawValue)) :
    (c1SumC tvs).providers = compiledValueProviders tvs := rfl

/-- The C summary carries no entry components. -/
theorem c1SumC_entryComponents (tvs : List (RawToken × RawValue)) :
    (c1SumC tvs).entryComponents = [] := rfl

/-- The C summary exports no directives. -/
theorem c1SumC_exportedDirectives (tvs : List (RawToken × RawValue)) :
    (c1SumC tvs).exportedDirectives = [] := rfl

/-- The C summary exports no pipes. -/
theorem c1SumC_exportedPipes (tvs : List (RawToken × RawValue)) :
    (c1SumC tvs).exportedPipes = [] := rfl

/-- The C summary has no directive loaders. -/
theorem c1SumC_directiveLoaders (tvs : List (RawToken × RawValue)) :
    (c1SumC tvs).directiveLoaders = [] := rfl

/-- Projections of the B summary. -/
theorem c1SumB_providers (tvsB tvsC : List (RawToken × RawValue)) :
    (c1SumB tvsB tvsC).providers = compiledValueProviders tvsB := rfl

/-- The B summary carries no entry components. -/
theorem c1SumB_entryComponents (tvsB tvsC : List (RawToken × RawValue)) :
    (c1SumB tvsB tvsC).entryComponents = [] := rfl

/-- The B summary exports no directives. -/
theorem c1SumB_exportedDirectives (tvsB tvsC : List (RawToken × RawValue)) :
    (c1SumB tvsB tvsC).exportedDirectives = [] := rfl

/-- The B summary exports no pipes. -/
theorem c1SumB_exportedPipes (tvsB tvsC : List (RawToken × RawValue)) :
    (c1SumB tvsB tvsC).exportedPipes = [] := rfl

/-- The B summary has no directive loaders. -/
theorem c1SumB_directiveLoaders (tvsB tvsC : List (RawToken × RawValue)) :
    (c1SumB tvsB tvsC).directiveLoaders = [] := rfl

/-- Visiting the C summary in the both-directions closure. -/
theorem visitImported_sumC (tvs : List (RawToken × RawValue))
    (target : List ModuleSummary) (visited : List Nat) (h : (12 : Nat) ∉ visited) :
    visitImportedModule (c1SumC tvs) target visited =
      (target ++ [c1SumC tvs], visited ++ [12]) := by
  simp [c1SumC, visitImportedModule, getTransitiveImportedModules, h]

/-- Visiting the C summary in the exported-modules closure. -/
theorem visitExported_sumC (tvs : List (RawToken × RawValue))
    (target : List ModuleSummary) (visited : List Nat) (h : (12 : Nat) ∉ visited) :
    visitExportedModule (c1SumC tvs) target visited =
      (target ++ [c1SumC tvs], visited ++ [12]) := by
  simp [c1SumC, visitExportedModule, getTransitiveExportedModules, h]

/-- Visiting the B summary in the both-directions closure pulls C in
first. -/
theorem visitImported_sumB (tvsB tvsC : List (RawToken × RawValue)) :
    visitImportedModule (c1SumB tvsB tvsC) [] [] =
      ([c1SumC tvsC, c1SumB tvsB tvsC], [11, 12]) := by
  have h := visitImported_sumC tvsC [] [11] (by decide)
  have hloop : getTransitiveImportedModules [c1SumC tvsC] [] [11] =
      ([c1SumC tvsC], [11, 12]) := by
    simp [getTransitiveImportedModules, h]
  simp only [c1SumB, visitImportedModule]
  simp [hloop, getTransitiveImportedModules, h]

/-- Visiting the B summary in the exported-modules closure. -/
theorem visitExported_sumB (tvsB tvsC : List (RawToken × RawValue)) :
    visitExportedModule (c1SumB tvsB tvsC) [] [] =
      ([c1SumB tvsB tvsC], [11]) := by
  simp [c1SumB, visitExportedModule, getTransitiveExportedModules]

/-- The transitive aggregate computed for module B of the chain. -/
theorem transB_eq (tvsC : List (RawToken × RawValue)) :
    _getTransitiveNgModuleMetadata [c1SumC tvsC] [] = c1TransB tvsC := by
  have hv1 := visitImported_sumC tvsC [] [] (by decide)
  have hv2 := visitExported_sumC tvsC [] [] (by decide)
  simp [_getTransitiveNgModuleMetadata, getTransitiveImportedModules,
    getTransitiveExportedModules, hv1, hv2, mkTransitiveMeta, c1TransB,
    c1SumC_providers, c1SumC_entryComponents, c1SumC_exportedDirectives,
    c1SumC_exportedPipes, c1SumC_directiveLoaders, flattenPE_cvp]

/-- The transitive aggregate computed for module A of the chain. -/
theorem transA_eq (tvsB tvsC : List (RawToken × RawValue)) :
    _getTransitiveNgModuleMetadata [c1SumB tvsB tvsC] [] = c1TransA tvsB tvsC := by
  have hv1 := visitImported_sumB tvsB tvsC
  have hv2 := visitExported_sumB tvsB tvsC
  simp [_getTransitiveNgModuleMetadata, getTransitiveImportedModules,
    getTransitiveExportedModules, hv1, hv2, mkTransitiveMeta, c1TransA,
    c1SumB_providers, c1SumB_entryComponents, c1SumB_exportedDirectives,
    c1SumB_exportedPipes, c1SumB_directiveLoaders,
    c1SumC_providers, c1SumC_entryComponents, c1SumC_exportedDirectives,
    c1SumC_exportedPipes, c1SumC_directiveLoaders,
    flattenPE_append, flattenPE_cvp]

set_option maxHeartbeats 1000000 in
/-- Resolving module B of the chain resolves C first, then caches and
returns `c1MetaB`, whose transitive providers are C's before B's own. -/
theorem c1RunB (pA : List RawProvider) (tvsB tvsC : List (RawToken × RawValue))
    (hB : ∀ tv ∈ tvsB, notAnalyze tv.1) (hC : ∀ tv ∈ tvsC, notAnalyze tv.1) :
    _loadNgModuleMetadata (c1Env pA (valueProviders tvsB) (valueProviders tvsC))
      9 11 true false emptyState =
      (.ok (some (c1MetaB tvsB tvsC)),
       { emptyState with
         ngModuleCache := [(12, c1MetaC tvsC), (11, c1MetaB tvsB tvsC)] }) := by
  have hrunC := c1RunC pA (valueProviders tvsB) tvsC hC
  have hprov : ∀ dbg, _getProvidersMetadata (c1Env pA (valueProviders tvsB) (valueProviders tvsC))
      (valueProviders tvsB) dbg = .ok (compiledValueProviders tvsB, []) :=
    fun dbg => getProvidersMetadata_value _ dbg tvsB hB
  have hsum : CompileNgModuleMetadata.toSummary (c1MetaC tvsC) = c1SumC tvsC := rfl
  have htrans := transB_eq tvsC
  have hsumCall : _loadNgModuleSummary (c1Env pA (valueProviders tvsB) (valueProviders tvsC))
      7 12 true emptyState =
      (.ok (some (c1SumC tvsC)),
       { emptyState with ngModuleCache := [(12, c1MetaC tvsC)] }) := by
    simp only [_loadNgModuleSummary, bind_apply, hrunC, Option.map, hsum, pure_apply]
  have hget0 : alGet emptyState.ngModuleCache 11 =
      (none : Option CompileNgModuleMetadata) := rfl
  have hann : ngModuleResolverResolve (c1Env pA (valueProviders tvsB) (valueProviders tvsC))
      11 false = .ok (some (c1AnnotB (valueProviders tvsB))) := rfl
  have himp : ∀ pb : List RawProvider,
      flattenAndDedupeArray ((c1AnnotB pb).imports.getD []) = [RawImportEntry.modType 12] :=
    fun _ => rfl
  have hexp : ∀ pb : List RawProvider,
      flattenAndDedupeArray ((c1AnnotB pb).exports.getD []) = ([] : List RawTypeEntry) :=
    fun _ => rfl
  have hdecl : ∀ pb : List RawProvider,
      flattenAndDedupeArray ((c1AnnotB pb).declarations.getD []) = ([] : List RawTypeEntry) :=
    fun _ => rfl
  have hec : ∀ pb : List RawProvider,
      flattenAndDedupeArray ((c1AnnotB pb).entryComponents.getD []) = ([] : List Nat) :=
    fun _ => rfl
  have hboot : ∀ pb : List RawProvider,
      flattenAndDedupeArray ((c1AnnotB pb).bootstrap.getD []) = ([] : List RawTypeEntry) :=
    fun _ => rfl
  have hsch : ∀ pb : List RawProvider,
      flattenAndDedupeArray ((c1AnnotB pb).schemas.getD []) = ([] : List Nat) :=
    fun _ => rfl
  have hprovs : ∀ pb : List RawProvider, (c1AnnotB pb).providers = some pb := fun _ => rfl
  have hid : ∀ pb : List RawProvider, (c1AnnotB pb).id = (none : Option String) :=
    fun _ => rfl
  have hty : _getTypeMetadata (c1Env pA (valueProviders tvsB) (valueProviders tvsC)) 11 none =
      .ok (plainTypeMeta 11) := rfl
  have hset : ∀ v : CompileNgModuleMetadata,
      alSet [(12, c1MetaC tvsC)] 11 v = [(12, c1MetaC tvsC), (11, v)] := fun _ => rfl
  simp only [_loadNgModuleMetadata, processImports, processExports,
    processDeclarations, processEntryComponents, processBootstrap, classifyExports,
    bind_apply, pure_apply, liftE_apply, getR_apply, modifyR_apply,
    exceptBind_ok, exceptBind_error,
    hget0, hann, himp, hexp, hdecl, hec, hboot, hsch, hprovs, hid, hty, hset,
    hsumCall, hprov, htrans, c1TransB,
    CompileNgModuleMetadata.toInjectorSummary, plainTypeMeta,
    List.nil_append, List.append_nil, List.cons_append]
  rfl

set_option maxHeartbeats 1000000 in
/-- Resolving module A of the chain resolves B (and so C) first, then
caches and returns `c1MetaA`, whose transitive providers are C's, then
B's, then A's own. -/
theorem c1RunA (tvsA tvsB tvsC : List (RawToken × RawValue))
    (hA : ∀ tv ∈ tvsA, notAnalyze tv.1) (hB : ∀ tv ∈ tvsB, notAnalyze tv.1)
    (hC : ∀ tv ∈ tvsC, notAnalyze tv.1) :
    _loadNgModuleMetadata
      (c1Env (valueProviders tvsA) (valueProviders tvsB) (valueProviders tvsC))
      12 10 true true emptyState =
      (.ok (some (c1MetaA tvsA tvsB tvsC)),
       { emptyState with
         ngModuleCache := [(12, c1MetaC tvsC), (11, c1MetaB tvsB tvsC),
                           (10, c1MetaA tvsA tvsB tvsC)] }) := by
  have hrunB := c1RunB (valueProviders tvsA) tvsB tvsC hB hC
  have hprov : ∀ dbg, _getProvidersMetadata
      (c1Env (valueProviders tvsA) (valueProviders tvsB) (valueProviders tvsC))
      (valueProviders tvsA) dbg = .ok (compiledValueProviders tvsA, []) :=
    fun dbg => getProvidersMetadata_value _ dbg tvsA hA
  have hsum : CompileNgModuleMetadata.toSummary (c1MetaB tvsB tvsC) = c1SumB tvsB tvsC := rfl
  have htrans := transA_eq tvsB tvsC
  have hsumCall : _loadNgModuleSummary
      (c1Env (valueProviders tvsA) (valueProviders tvsB) (valueProviders tvsC))
      10 11 true emptyState =
      (.ok (some (c1SumB tvsB tvsC)),
       { emptyState with
         ngModuleCache := [(12, c1MetaC tvsC), (11, c1MetaB tvsB tvsC)] }) := by
    simp only [_loadNgModuleSummary, bind_apply, hrunB, Option.map, hsum, pure_apply]
  have hget0 : alGet emptyState.ngModuleCache 10 =
      (none : Option CompileNgModuleMetadata) := rfl
  have hann : ngModuleResolverResolve
      (c1Env (valueProviders tvsA) (valueProviders tvsB) (valueProviders tvsC))
      10 true = .ok (some (c1AnnotA (valueProviders tvsA))) := rfl
  have himp : ∀ pa : List RawProvider,
      flattenAndDedupeArray ((c1AnnotA pa).imports.getD []) = [RawImportEntry.modType 11] :=
    fun _ => rfl
  have hexp : ∀ pa : List RawProvider,
      flattenAndDedupeArray ((c1AnnotA pa).exports.getD []) = ([] : List RawTypeEntry) :=
    fun _ => rfl
  have hdecl : ∀ pa : List RawProvider,
      flattenAndDedupeArray ((c1AnnotA pa).declarations.getD []) = ([] : List RawTypeEntry) :=
    fun _ => rfl
  have hec : ∀ pa : List RawProvider,
      flattenAndDedupeArray ((c1AnnotA pa).entryComponents.getD []) = ([] : List Nat) :=
    fun _ => rfl
  have hboot : ∀ pa : List RawProvider,
      flattenAndDedupeArray ((c1AnnotA pa).bootstrap.getD []) = ([] : List RawTypeEntry) :=
    fun _ => rfl
  have hsch : ∀ pa : List RawProvider,
      flattenAndDedupeArray ((c1AnnotA pa).schemas.getD []) = ([] : List Nat) :=
    fun _ => rfl
  have hprovs : ∀ pa : List RawProvider, (c1AnnotA pa).providers = some pa := fun _ => rfl
  have hid : ∀ pa : List RawProvider, (c1AnnotA pa).id = (none : Option String) :=
    fun _ => rfl
  have hty : _getTypeMetadata
      (c1Env (valueProviders tvsA) (valueProviders tvsB) (valueProviders tvsC)) 10 none =
      .ok (plainTypeMeta 10) := rfl
  have hset : ∀ v : CompileNgModuleMetadata,
      alSet [(12, c1MetaC tvsC), (11, c1MetaB tvsB tvsC)] 10 v =
        [(12, c1MetaC tvsC), (11, c1MetaB tvsB tvsC), (10, v)] := fun _ => rfl
  simp only [_loadNgModuleMetadata, processImports, processExports,
    processDeclarations, processEntryComponents, processBootstrap, classifyExports,
    bind_apply, pure_apply, liftE_apply, getR_apply, modifyR_apply,
    exceptBind_ok, exceptBind_error,
    hget0, hann, himp, hexp, hdecl, hec, hboot, hsch, hprovs, hid, hty, hset,
    hsumCall, hprov, htrans, c1TransA,
    CompileNgModuleMetadata.toInjectorSummary, plainTypeMeta,
    List.nil_append, List.append_nil, List.cons_append]
  rfl

/-- Folding the last-writer step from any accumulator either finds a
provider in the suffix or returns the accumulator. -/
theorem foldl_providerStep (t : CompileToken) :
    ∀ (ys : List ProviderEntry) (acc : Option CompileProvider),
      ys.foldl (providerStep t) acc =
        (match ys.foldl (providerStep t) none with
         | some p => some p
         | none => acc)
  | [], _ => rfl
  | y :: ys, acc => by
      show List.foldl (providerStep t) (providerStep t acc y) ys = _
      rw [foldl_providerStep t ys (providerStep t acc y)]
      conv_rhs =>
        rw [show (y :: ys).foldl (providerStep t) none =
              List.foldl (providerStep t) (providerStep t none y) ys from rfl,
            foldl_providerStep t ys (providerStep t none y)]
      cases hys : List.foldl (providerStep t) none ys with
      | some p => rfl
      | none =>
          cases y with
          | provider p =>
              by_cases h : p.token = t <;> simp [providerStep, h]
          | typeProv ty => simp [providerStep]
          | nested ps => simp [providerStep]

/-- Last-writer-wins over an appended provider list prefers the suffix. -/
theorem lastProviderFor_append (t : CompileToken) (xs ys : List ProviderEntry) :
    lastProviderFor t (xs ++ ys) =
      (match lastProviderFor t ys with
       | some p => some p
       | none => lastProviderFor t xs) := by
  unfold lastProviderFor
  rw [List.foldl_append]
  exact foldl_providerStep t ys (List.foldl (providerStep t) none xs)

/-- A non-zero type reference used as a value-provider token is not the
reserved entry-components collector token. -/
theorem notAnalyze_numV (r : Nat) (h : r ≠ 0) (v : RawValue) :
    ∀ tv ∈ [((RawToken.ref r : RawToken), v)], notAnalyze tv.1 := by
  intro tv htv
  simp only [List.mem_singleton] at htv
  subst htv
  show some r ≠ some analyzeForEntryComponentsRef
  simp [analyzeForEntryComponentsRef, h]

/-- C1: in the import chain A → B → C where all three modules declare value
providers, resolving A succeeds; A's resolved metadata keeps its own
providers separate, and the transitive module metadata lists C's compiled
providers first, then B's, then A's own last — so a last-writer-wins
resolution over the transitive list selects A's provider whenever A
declares one for the token. -/
theorem C1_transitive_providers_own_last
    (tvsA tvsB tvsC : List (RawToken × RawValue))
    (hA : ∀ tv ∈ tvsA, notAnalyze tv.1) (hB : ∀ tv ∈ tvsB, notAnalyze tv.1)
    (hC : ∀ tv ∈ tvsC, notAnalyze tv.1)
    (t : CompileToken)
    (hownA : (lastProviderFor t (compiledValueProviders tvsA)).isSome) :
    ∃ (metaA : CompileNgModuleMetadata) (st : ResolverState),
      _loadNgModuleMetadata
        (c1Env (valueProviders tvsA) (valueProviders tvsB) (valueProviders tvsC))
        12 10 true true emptyState = (.ok (some metaA), st) ∧
      metaA.providers = compiledValueProviders tvsA ∧
      metaA.transitiveModule.providers =
        (compiledValueProviders tvsC ++ compiledValueProviders tvsB) ++
          compiledValueProviders tvsA ∧
      lastProviderFor t metaA.transitiveModule.providers =
        lastProviderFor t (compiledValueProviders tvsA) := by
  refine ⟨c1MetaA tvsA tvsB tvsC, _, c1RunA tvsA tvsB tvsC hA hB hC, rfl, rfl, ?_⟩
  show lastProviderFor t
      ((compiledValueProviders tvsC ++ compiledValueProviders tvsB) ++
        compiledValueProviders tvsA) = _
  rw [lastProviderFor_append]
  cases hlast : lastProviderFor t (compiledValueProviders tvsA) with
  | some p => rfl
  | none => rw [hlast] at hownA; cases hownA

/-- Witness: the chain with modules A, B, C each declaring a value provider
for token 100 resolves, orders the compiled providers C, B, A, and
resolves token 100 to A's provider. -/
theorem C1_transitive_providers_own_last_witness :
    ∃ (metaA : CompileNgModuleMetadata) (st : ResolverState),
      _loadNgModuleMetadata
        (c1Env (valueProviders [(.ref 100, .numV 1)])
          (valueProviders [(.ref 100, .numV 2)]) (valueProviders [(.ref 100, .numV 3)]))
        12 10 true true emptyState = (.ok (some metaA), st) ∧
      metaA.providers = compiledValueProviders [(.ref 100, .numV 1)] ∧
      metaA.transitiveModule.providers =
        (compiledValueProviders [(.ref 100, .numV 3)] ++
          compiledValueProviders [(.ref 100, .numV 2)]) ++
          compiledValueProviders [(.ref 100, .numV 1)] ∧
      lastProviderFor (.identifier 100) metaA.transitiveModule.providers =
        lastProviderFor (.identifier 100) (compiledValueProviders [(.ref 100, .numV 1)]) :=
  C1_transitive_providers_own_last [(.ref 100, .numV 1)] [(.ref 100, .numV 2)]
    [(.ref 100, .numV 3)] (notAnalyze_numV 100 (by decide) _)
    (notAnalyze_numV 100 (by decide) _) (notAnalyze_numV 100 (by decide) _)
    (.identifier 100) (by rfl)

/-- C2 (counterexample): a failing module resolution can modify resolver
caches. Module 20 declares pipe 21 and then an invalid value: resolution
fails with the diagnostic, yet the pipe caches and the
type-to-declaring-module map already hold entries from the partially
processed declarations (the module cache itself stays empty). -/
theorem C2_failing_resolution_mutates_caches :
    ∃ (e : CompileError) (st : ResolverState),
      _loadNgModuleMetadata (c2Env "pn" true) 2 20 true true emptyState =
        (.error e, st) ∧
      st.ngModuleOfTypes ≠ emptyState.ngModuleOfTypes ∧
      (alGet st.pipeCache 21).isSome ∧
      st.ngModuleCache = emptyState.ngModuleCache :=
  ⟨.message "Unexpected value 'Value99' declared by the module 'Type20'",
   c2ExpectedState "pn" true, rfl, by decide, rfl, rfl⟩

/-- C2 (amended): what a failing module resolution actually leaves behind.
For the module declaring pipe 21 and then an invalid value, the resolution
fails with the diagnostic and the final state is exactly
`c2ExpectedState`: the pipe metadata and summary caches and the
type-to-declaring-module map keep the entries written before the throw,
while the module cache itself is untouched (the module is only cached
after the whole resolution succeeds). -/
theorem C2_failing_resolution_state (nm : String) (pr : Bool) :
    _loadNgModuleMetadata (c2Env nm pr) 2 20 true true emptyState =
      (.error (.message "Unexpected value 'Value99' declared by the module 'Type20'"),
       c2ExpectedState nm pr) ∧
    (c2ExpectedState nm pr).ngModuleCache = emptyState.ngModuleCache ∧
    (c2ExpectedState nm pr).pipeCache ≠ emptyState.pipeCache :=
  ⟨rfl, rfl, fun h => by simpa [c2ExpectedState, emptyState] using congrArg List.length h⟩

/-- A successful `seqOptions` list draws each element from the input. -/
theorem seqOptions_mem {α : Type} :
    ∀ (xs : List (Option α)) (ys : List α), seqOptions xs = some ys →
      ∀ y ∈ ys, some y ∈ xs
  | [], ys, h => by
      simp only [seqOptions, Option.some.injEq] at h
      subst h
      intro y hy
      exact absurd hy (List.not_mem_nil y)
  | none :: xs, ys, h => by simp [seqOptions] at h
  | some a :: xs, ys, h => by
      simp only [seqOptions] at h
      cases hx : seqOptions xs with
      | none => rw [hx] at h; cases h
      | some zs =>
          rw [hx] at h
          simp only [Option.map] at h
          injection h with h2
          subst h2
          intro y hy
          rcases List.mem_cons.mp hy with rfl | hmem
          · exact List.mem_cons_self _ _
          · exact List.mem_cons_of_mem _ (seqOptions_mem xs zs hx y hmem)

/-- The parameter-entry scan keeps an attribute's string token unless an
`Inject` marker appears after the attribute. -/
theorem foldl_scan_attr :
    ∀ (es : List ParamEntry) (s : ParamScan),
      injectAfterAttribute s.isAttribute es = false →
      (s.isAttribute = true → ∃ nm, s.token = some (RawToken.str nm)) →
      ((es.foldl scanParamEntry s).isAttribute = true →
        ∃ nm, (es.foldl scanParamEntry s).token = some (RawToken.str nm))
  | [], _, _, hbase => hbase
  | e :: es, s, hsafe, hbase => by
      rcases e with _ | _ | _ | _ | nm | tok | r | _
      · exact foldl_scan_attr es { s with isHost := true }
          (by simpa [injectAfterAttribute] using hsafe) hbase
      · exact foldl_scan_attr es { s with isSelf := true }
          (by simpa [injectAfterAttribute] using hsafe) hbase
      · exact foldl_scan_attr es { s with isSkipSelf := true }
          (by simpa [injectAfterAttribute] using hsafe) hbase
      · exact foldl_scan_attr es { s with isOptional := true }
          (by simpa [injectAfterAttribute] using hsafe) hbase
      · exact foldl_scan_attr es { s with isAttribute := true, token := some (.str nm) }
          (by simpa [injectAfterAttribute] using hsafe) (fun _ => ⟨nm, rfl⟩)
      · have hparts : s.isAttribute = false ∧
            injectAfterAttribute s.isAttribute es = false := by
          simpa [injectAfterAttribute] using hsafe
        exact foldl_scan_attr es { s with token := some tok }
          (by simpa using hparts.2)
          (fun h => absurd h (by simp [hparts.1]))
      · simp only [List.foldl]
        by_cases ht : s.token = none
        · rw [show scanParamEntry s (.typeEntry r) = { s with token := some (.ref r) } by
            simp [scanParamEntry, ht]]
          refine foldl_scan_attr es { s with token := some (.ref r) }
            (by simpa [injectAfterAttribute] using hsafe) ?_
          intro h
          obtain ⟨nm, hnm⟩ := hbase (by simpa using h)
          rw [hnm] at ht
          exact Option.noConfusion ht
        · rw [show scanParamEntry s (.typeEntry r) = s by simp [scanParamEntry, ht]]
          exact foldl_scan_attr es s
            (by simpa [injectAfterAttribute] using hsafe) hbase
      · exact foldl_scan_attr es s
          (by simpa [injectAfterAttribute] using hsafe) hbase

/-- A dependency extracted from an attribute-safe parameter has a string
token whenever its attribute flag is set. -/
theorem dependencyOfParam_attr (p : RawParam) (hp : paramAttrSafe p = true)
    (d : DiDep) (hd : dependencyOfParam p = some d) (ha : d.isAttribute = true) :
    isStringToken d.token = true := by
  cases p with
  | single t =>
      cases t with
      | none => simp [dependencyOfParam, scanParam] at hd
      | some tok =>
          simp only [dependencyOfParam, scanParam, Option.some.injEq] at hd
          subst hd
          exact absurd ha (by simp)
  | composite es =>
      have hsafe2 : injectAfterAttribute (({} : ParamScan)).isAttribute es = false := by
        simp only [paramAttrSafe, Bool.not_eq_true'] at hp
        simpa using hp
      have hinv : (scanParam (RawParam.composite es)).isAttribute = true →
          ∃ nm, (scanParam (RawParam.composite es)).token = some (RawToken.str nm) :=
        foldl_scan_attr es {} hsafe2 (fun h => absurd h (by simp))
      rw [show dependencyOfParam (RawParam.composite es) =
            (match (scanParam (RawParam.composite es)).token with
             | none => none
             | some token =>
                 some { isAttribute := (scanParam (RawParam.composite es)).isAttribute,
                        isHost := (scanParam (RawParam.composite es)).isHost,
                        isSelf := (scanParam (RawParam.composite es)).isSelf,
                        isSkipSelf := (scanParam (RawParam.composite es)).isSkipSelf,
                        isOptional := (scanParam (RawParam.composite es)).isOptional,
                        token := _getTokenMetadata token }) from rfl] at hd
      cases hs : (scanParam (RawParam.composite es)).token with
      | none => rw [hs] at hd; cases hd
      | some tok =>
          rw [hs] at hd
          simp only [Option.some.injEq] at hd
          subst hd
          obtain ⟨nm, hnm⟩ := hinv ha
          rw [hs] at hnm
          injection hnm with hnm2
          subst hnm2
          rfl

/-- C3 (amended): for every parameter list from which dependency
extraction succeeds, provided no parameter places an `Inject` marker after
an `Attribute` marker, every resulting dependency with `isAttribute = true`
carries a plain string token. (The spec's unconditional claim fails: a
later `Inject` overwrites the token while `isAttribute` stays set.) -/
theorem C3_attribute_token_plain_string (env : Env) (typeOrFunc : Nat)
    (dependencies : Option (List RawParam)) (deps : List DiDep)
    (hsafe : ∀ p ∈ effectiveParams env typeOrFunc dependencies, paramAttrSafe p = true)
    (hok : _getDependenciesMetadata env typeOrFunc dependencies = .ok deps) :
    ∀ d ∈ deps, d.isAttribute = true → isStringToken d.token = true := by
  intro d hd ha
  simp only [_getDependenciesMetadata] at hok
  cases hseq : seqOptions ((effectiveParams env typeOrFunc dependencies).map dependencyOfParam) with
  | none => rw [hseq] at hok; cases hok
  | some ds =>
      rw [hseq] at hok
      injection hok with h2
      subst h2
      have hmem : some d ∈ (effectiveParams env typeOrFunc dependencies).map dependencyOfParam :=
        seqOptions_mem _ _ hseq d hd
      obtain ⟨p, hp, hpd⟩ := List.mem_map.mp hmem
      exact dependencyOfParam_attr p (hsafe p hp) d hpd ha

/-- Witness: a composite parameter `[Attribute("a")]` yields the
dependency with the attribute flag set, whose token the amended invariant
certifies to be the plain string "a". -/
theorem C3_attribute_token_plain_string_witness :
    isStringToken (DiDep.token ⟨true, false, false, false, false, .value "a"⟩) = true :=
  C3_attribute_token_plain_string emptyEnv 7 (some [.composite [.attribute "a"]])
    [⟨true, false, false, false, false, .value "a"⟩]
    (by decide) rfl
    ⟨true, false, false, false, false, .value "a"⟩
    (List.mem_singleton.mpr rfl) rfl

/-- C3 (counterexample): an `Inject` marker after an `Attribute` marker in
the same composite parameter leaves `isAttribute = true` while the token
becomes the injected identifier — dependency extraction succeeds and the
resulting dependency's token is not a plain string. -/
theorem C3_attribute_identifier_token :
    ∃ (deps : List DiDep),
      _getDependenciesMetadata emptyEnv 7
        (some [.composite [.attribute "a", .inject (.ref 5)]]) = .ok deps ∧
      ∃ d ∈ deps, d.isAttribute = true ∧ isStringToken d.token = false :=
  ⟨[⟨true, false, false, false, false, .identifier 5⟩], rfl,
   ⟨true, false, false, false, false, .identifier 5⟩,
   List.mem_singleton.mpr rfl, rfl, rfl⟩

/-- Sequencing: a postcondition of every continuation outcome is one of the
bind. -/
theorem ensuresOk_bind {α β : Type} (Q : β → ResolverState → Prop) (st0 : ResolverState)
    (m : ResM α) (k : α → ResM β)
    (hk : ∀ a st2, m st0 = (.ok a, st2) → EnsuresOk Q st2 (k a)) :
    EnsuresOk Q st0 (m >>= k) := by
  intro b st1 h
  rw [bind_apply] at h
  cases hm : m st0 with
  | mk r st2 =>
      rw [hm] at h
      cases r with
      | ok a => exact hk a st2 hm b st1 h
      | error e => exact absurd h (by simp)

/-- A pure computation satisfies any postcondition it starts in. -/
theorem ensuresOk_pure {α : Type} (Q : α → ResolverState → Prop) (st0 : ResolverState)
    (a : α) (h : Q a st0) : EnsuresOk Q st0 (pure a) := by
  intro b st1 hb
  have hb2 : ((Except.ok a : Except CompileError α), st0) = (.ok b, st1) := hb
  simp only [Prod.mk.injEq, Except.ok.injEq] at hb2
  obtain ⟨rfl, rfl⟩ := hb2
  exact h

/-- A throw satisfies every postcondition vacuously. -/
theorem ensuresOk_throw {α : Type} (Q : α → ResolverState → Prop) (st0 : ResolverState)
    (e : CompileError) : EnsuresOk Q st0 (throwR e) := by
  intro b st1 hb
  have hb2 : ((Except.error e : Except CompileError α), st0) = (.ok b, st1) := hb
  simp at hb2

/-- What `createDirectiveMetadata` does to a state, explicitly. -/
theorem createDirectiveMetadata_apply (dt : Nat) (md : CompileDirectiveMetadata)
    (tm : Option CompileTemplateMetadata) (st : ResolverState) :
    createDirectiveMetadata dt md tm st =
      (.ok { md with template := tm },
       { st with
         directiveCache := alSet st.directiveCache dt { md with template := tm },
         directiveSummaryCache :=
           alSet st.directiveSummaryCache dt
             ({ md with template := tm } : CompileDirectiveMetadata).toSummary }) := rfl

/-- A successful module resolution leaves the resolved record in the
module cache. -/
theorem loadNgModule_success_cached (env : Env) (fuel mt : Nat) (s1 t1 : Bool)
    (st st1 : ResolverState) (meta : CompileNgModuleMetadata)
    (h : _loadNgModuleMetadata env fuel mt s1 t1 st = (.ok (some meta), st1)) :
    alGet st1.ngModuleCache mt = some meta := by
  have he : ∀ (st0 : ResolverState),
      EnsuresOk (fun aOpt stf => ∀ m2, aOpt = some m2 → alGet stf.ngModuleCache mt = some m2)
        st0 (_loadNgModuleMetadata env fuel mt s1 t1) := by
    intro st0
    cases fuel with
    | zero =>
        intro a stf hrun
        have hrun2 : ((Except.error .fuelExhausted : Except CompileError _), st0) =
            (.ok a, stf) := hrun
        simp at hrun2
    | succ fuel =>
        simp only [_loadNgModuleMetadata]
        refine ensuresOk_bind _ _ _ _ ?_
        intro stv st2 hg
        have hg2 : ((Except.ok st0 : Except CompileError _), st0) = (.ok stv, st2) := hg
        simp only [Prod.mk.injEq, Except.ok.injEq] at hg2
        obtain ⟨rfl, rfl⟩ := hg2
        cases hc : alGet st0.ngModuleCache mt with
        | some cm =>
            refine ensuresOk_pure _ _ _ ?_
            intro m2 hm2
            injection hm2 with h2
            rw [← h2]
            exact hc
        | none =>
            refine ensuresOk_bind _ _ _ _ ?_
            intro aOpt st2 hres
            cases aOpt with
            | none =>
                refine ensuresOk_pure _ _ _ ?_
                intro m2 hm2
                exact Option.noConfusion hm2
            | some meta0 =>
                refine ensuresOk_bind _ _ _ _ ?_
                intro x st3 hpi
                refine ensuresOk_bind _ _ _ _ ?_
                intro y st4 hpe
                refine ensuresOk_bind _ _ _ _ ?_
                intro z st5 hpd
                refine ensuresOk_bind _ _ _ _ ?_
                intro w st6 hce
                cases hpr : meta0.providers with
                | some ps =>
                    refine ensuresOk_bind _ _ _ _ ?_
                    intro own st7 hown
                    refine ensuresOk_bind _ _ _ _ ?_
                    intro ec2 st8 hec2
                    refine ensuresOk_bind _ _ _ _ ?_
                    intro boot st9 hboot
                    refine ensuresOk_bind _ _ _ _ ?_
                    intro ty st10 hty
                    refine ensuresOk_bind _ _ _ _ ?_
                    intro u st11 hmod
                    simp only [modifyR_apply, Prod.mk.injEq] at hmod
                    obtain ⟨-, rfl⟩ := hmod
                    refine ensuresOk_pure _ _ _ ?_
                    intro m2 hm2
                    injection hm2 with h2
                    rw [← h2]
                    exact alGet_alSet_self _ _ _
                | none =>
                    refine ensuresOk_bind _ _ _ _ ?_
                    intro own st7 hown
                    refine ensuresOk_bind _ _ _ _ ?_
                    intro ec2 st8 hec2
                    refine ensuresOk_bind _ _ _ _ ?_
                    intro boot st9 hboot
                    refine ensuresOk_bind _ _ _ _ ?_
                    intro ty st10 hty
                    refine ensuresOk_bind _ _ _ _ ?_
                    intro u st11 hmod
                    simp only [modifyR_apply, Prod.mk.injEq] at hmod
                    obtain ⟨-, rfl⟩ := hmod
                    refine ensuresOk_pure _ _ _ ?_
                    intro m2 hm2
                    injection hm2 with h2
                    rw [← h2]
                    exact alGet_alSet_self _ _ _
  exact he st (some meta) st1 h meta rfl

/-- A completed directive resolution leaves a record in the directive
cache. -/
theorem loadDirective_success_cached (env : Env) (dt : Nat) (s : Bool)
    (st st1 : ResolverState)
    (h : _loadDirectiveMetadata env dt s st = (.ok none, st1)) :
    (alGet st1.directiveCache dt).isSome = true := by
  have he : ∀ (st0 : ResolverState),
      EnsuresOk (fun res stf => res = none → (alGet stf.directiveCache dt).isSome = true)
        st0 (_loadDirectiveMetadata env dt s) := by
    intro st0
    simp only [_loadDirectiveMetadata]
    refine ensuresOk_bind _ _ _ _ ?_
    intro stv st2 hg
    have hg2 : ((Except.ok st0 : Except CompileError _), st0) = (.ok stv, st2) := hg
    simp only [Prod.mk.injEq, Except.ok.injEq] at hg2
    obtain ⟨rfl, rfl⟩ := hg2
    by_cases hcc : (alGet st0.directiveCache dt).isSome = true
    · rw [if_pos hcc]
      exact ensuresOk_pure _ _ _ (fun _ => hcc)
    · rw [if_neg hcc]
      refine ensuresOk_bind _ _ _ _ ?_
      intro x st2 hx
      by_cases hcm : x.2.isComponent = true
      · rw [if_pos hcm]
        cases ht : x.2.template with
        | none =>
            exact ensuresOk_throw _ _ _
        | some tpl =>
            refine ensuresOk_bind _ _ _ _ ?_
            intro url st3 hurl
            cases hn : env.normalizeTemplate (buildNormalizeRequest dt url tpl) with
            | sync t =>
                refine ensuresOk_bind _ _ _ _ ?_
                intro u st4 hcr
                rw [createDirectiveMetadata_apply] at hcr
                simp only [Prod.mk.injEq] at hcr
                obtain ⟨-, rfl⟩ := hcr
                refine ensuresOk_pure _ _ _ ?_
                intro _
                simp [alGet_alSet_self]
            | async t =>
                cases s with
                | true => exact ensuresOk_throw _ _ _
                | false =>
                    exact ensuresOk_pure _ _ _ (fun hnone => Option.noConfusion hnone)
      · rw [if_neg hcm]
        refine ensuresOk_bind _ _ _ _ ?_
        intro u st4 hcr
        rw [createDirectiveMetadata_apply] at hcr
        simp only [Prod.mk.injEq] at hcr
        obtain ⟨-, rfl⟩ := hcr
        refine ensuresOk_pure _ _ _ ?_
        intro _
        simp [alGet_alSet_self]
  exact he st none st1 h rfl

/-- A successful pipe load leaves the pipe record in the pipe cache. -/
theorem getOrLoadPipe_success_cached (env : Env) (pt : Nat) (st st1 : ResolverState)
    (pm : CompilePipeMetadata)
    (h : getOrLoadPipeMetadata env pt st = (.ok pm, st1)) :
    alGet st1.pipeCache pt = some pm := by
  have he : ∀ (st0 : ResolverState),
      EnsuresOk (fun res stf => alGet stf.pipeCache pt = some res)
        st0 (getOrLoadPipeMetadata env pt) := by
    intro st0
    simp only [getOrLoadPipeMetadata]
    refine ensuresOk_bind _ _ _ _ ?_
    intro stv st2 hg
    have hg2 : ((Except.ok st0 : Except CompileError _), st0) = (.ok stv, st2) := hg
    simp only [Prod.mk.injEq, Except.ok.injEq] at hg2
    obtain ⟨rfl, rfl⟩ := hg2
    cases hc : alGet st0.pipeCache pt with
    | some cm =>
        exact ensuresOk_pure _ _ _ hc
    | none =>
        simp only [_loadPipeMetadata]
        refine ensuresOk_bind _ _ _ _ ?_
        intro pa st3 hpa
        refine ensuresOk_bind _ _ _ _ ?_
        intro ty st4 hty
        refine ensuresOk_bind _ _ _ _ ?_
        intro u st5 hm1
        simp only [modifyR_apply, Prod.mk.injEq] at hm1
        obtain ⟨-, rfl⟩ := hm1
        refine ensuresOk_bind _ _ _ _ ?_
        intro v st6 hm2
        simp only [modifyR_apply, Prod.mk.injEq] at hm2
        obtain ⟨-, rfl⟩ := hm2
        refine ensuresOk_pure _ _ _ ?_
        exact alGet_alSet_self _ _ _
  exact he st pm st1 h

/-- A cache hit returns the cached module record unchanged, under any
environment. -/
theorem loadNgModule_cache_hit (env2 : Env) (fuel mt : Nat) (s2 t2 : Bool)
    (st : ResolverState) (meta : CompileNgModuleMetadata)
    (hc : alGet st.ngModuleCache mt = some meta) :
    _loadNgModuleMetadata env2 (fuel + 1) mt s2 t2 st = (.ok (some meta), st) := by
  simp only [_loadNgModuleMetadata, bind_apply, getR_apply, hc, pure_apply]

/-- A directive cache hit is a pure no-op, under any environment. -/
theorem loadDirective_cache_hit (env2 : Env) (dt : Nat) (s2 : Bool)
    (st : ResolverState) (hc : (alGet st.directiveCache dt).isSome = true) :
    _loadDirectiveMetadata env2 dt s2 st = (.ok none, st) := by
  simp only [_loadDirectiveMetadata, bind_apply, getR_apply]
  rw [if_pos hc]
  simp only [pure_apply]

/-- A pipe cache hit returns the cached record unchanged, under any
environment. -/
theorem getOrLoadPipe_cache_hit (env2 : Env) (pt : Nat) (st : ResolverState)
    (pm : CompilePipeMetadata) (hc : alGet st.pipeCache pt = some pm) :
    getOrLoadPipeMetadata env2 pt st = (.ok pm, st) := by
  simp only [getOrLoadPipeMetadata, bind_apply, getR_apply, hc, pure_apply]

/-- C4: resolving a module, directive, or pipe type whose first resolution
succeeded a second time returns the identical cached record and leaves the
state untouched, and this holds for EVERY environment of collaborators in
the second call — so no collaborator (annotation reader, reflection
provider, template normalizer) can have been consulted by it. -/
theorem C4_second_resolution_is_cache_hit :
    (∀ (env : Env) (fuel mt : Nat) (s1 t1 : Bool) (st st1 : ResolverState)
       (meta : CompileNgModuleMetadata),
      _loadNgModuleMetadata env fuel mt s1 t1 st = (.ok (some meta), st1) →
      ∀ (env2 : Env) (fuel2 : Nat) (s2 t2 : Bool),
        _loadNgModuleMetadata env2 (fuel2 + 1) mt s2 t2 st1 = (.ok (some meta), st1)) ∧
    (∀ (env : Env) (dt : Nat) (s : Bool) (st st1 : ResolverState),
      _loadDirectiveMetadata env dt s st = (.ok none, st1) →
      ∀ (env2 : Env) (s2 : Bool),
        _loadDirectiveMetadata env2 dt s2 st1 = (.ok none, st1)) ∧
    (∀ (env : Env) (pt : Nat) (st st1 : ResolverState) (pm : CompilePipeMetadata),
      getOrLoadPipeMetadata env pt st = (.ok pm, st1) →
      ∀ env2 : Env, getOrLoadPipeMetadata env2 pt st1 = (.ok pm, st1)) :=
  ⟨fun env fuel mt s1 t1 st st1 meta h env2 fuel2 s2 t2 =>
      loadNgModule_cache_hit env2 fuel2 mt s2 t2 st1 meta
        (loadNgModule_success_cached env fuel mt s1 t1 st st1 meta h),
   fun env dt s st st1 h env2 s2 =>
      loadDirective_cache_hit env2 dt s2 st1
        (loadDirective_success_cached env dt s st st1 h),
   fun env pt st st1 pm h env2 =>
      getOrLoadPipe_cache_hit env2 pt st1 pm
        (getOrLoadPipe_success_cached env pt st st1 pm h)⟩

/-- Witness: module 12 resolved once under the chain environment is served
from the cache by a second call under the EMPTY environment; likewise
directive 31 and pipe 21 first resolved under `c4Env` are no-ops under the
empty environment afterwards. -/
theorem C4_second_resolution_is_cache_hit_witness :
    _loadNgModuleMetadata emptyEnv 1 12 true true
      { emptyState with ngModuleCache := [(12, c1MetaC [])] } =
      (.ok (some (c1MetaC [])),
       { emptyState with ngModuleCache := [(12, c1MetaC [])] }) ∧
    (∃ st1, _loadDirectiveMetadata c4Env 31 true emptyState = (.ok none, st1) ∧
      _loadDirectiveMetadata emptyEnv 31 false st1 = (.ok none, st1)) ∧
    (∃ st1, getOrLoadPipeMetadata c4Env 21 emptyState = (.ok (c2PipeMeta "p" true), st1) ∧
      getOrLoadPipeMetadata emptyEnv 21 st1 = (.ok (c2PipeMeta "p" true), st1)) :=
  ⟨C4_second_resolution_is_cache_hit.1 (c1Env [] [] (valueProviders [])) 6 12 true false
      emptyState _ (c1MetaC []) (by rfl) emptyEnv 0 true true,
   ⟨_, rfl, C4_second_resolution_is_cache_hit.2.1 c4Env 31 true emptyState _ rfl emptyEnv false⟩,
   ⟨_, rfl, C4_second_resolution_is_cache_hit.2.2 c4Env 21 emptyState _ (c2PipeMeta "p" true)
      rfl emptyEnv⟩⟩

/-- A type already claimed by a different module makes `_addTypeToModule`
throw the DirectiveInTwoModules diagnostic, leaving the state at the throw
point. -/
theorem addTypeToModule_conflict (type m1 m2 : Nat) (st : ResolverState)
    (hreg : alGet st.ngModuleOfTypes type = some m1) (hne : m1 ≠ m2) :
    _addTypeToModule type m2 st =
      (.error (.message (declaredInTwoModulesMsg type m1 m2)), st) := by
  simp only [_addTypeToModule, bind_apply, getR_apply, hreg]
  rw [if_pos hne]
  rfl

/-- C5: a directive or pipe type `d` already registered as declared by
module `m1` makes the resolution of any second module `m2 ≠ m1` whose
declarations contain `d` fail with the DirectiveInTwoModules diagnostic
(and the failing resolution caches nothing for `m2`: the state is
returned unchanged). -/
theorem C5_second_module_declaration_fails (d m1 m2 : Nat) (asPipe : Bool) (fuel : Nat)
    (st : ResolverState)
    (hreg : alGet st.ngModuleOfTypes d = some m1) (hne : m1 ≠ m2)
    (hmod : alGet st.ngModuleCache m2 = none) :
    _loadNgModuleMetadata (c5Env d m2 asPipe) (fuel + 2) m2 true true st =
      (.error (.message (declaredInTwoModulesMsg d m1 m2)), st) := by
  have hadd := addTypeToModule_conflict d m1 m2 st hreg hne
  have hann : ngModuleResolverResolve (c5Env d m2 asPipe) m2 true =
      .ok (some (c5Annot d)) := by
    simp [ngModuleResolverResolve, c5Env]
  have hdecl : flattenAndDedupeArray ((c5Annot d).declarations.getD []) =
      [RawTypeEntry.validType d] := rfl
  have himp : flattenAndDedupeArray ((c5Annot d).imports.getD []) =
      ([] : List RawImportEntry) := rfl
  have hexp : flattenAndDedupeArray ((c5Annot d).exports.getD []) =
      ([] : List RawTypeEntry) := rfl
  have hpi : processImports (c5Env d m2 asPipe) (fuel + 1) m2 true [] =
      pure ([], [], []) := rfl
  have hpe : processExports (c5Env d m2 asPipe) (fuel + 1) m2 true [] =
      pure ([], []) := rfl
  have hdir : (c5Env d m2 asPipe).isDirective d = !asPipe := by
    simp [c5Env]
  have hpip : (c5Env d m2 asPipe).isPipe d = asPipe := by
    simp [c5Env]
  cases asPipe <;>
    simp [_loadNgModuleMetadata, processDeclarations, bind_apply, getR_apply,
      liftE_apply, pure_apply, throwR_apply, hmod, hann, hdecl, himp, hexp, hpi, hpe,
      hdir, hpip, hadd,
      _getTransitiveNgModuleMetadata, getTransitiveImportedModules,
      getTransitiveExportedModules, mkTransitiveMeta]

/-- Witness: directive 1, registered to module 2, declared again by
module 3 — resolving module 3 fails with the DirectiveInTwoModules
diagnostic. -/
theorem C5_second_module_declaration_fails_witness :
    _loadNgModuleMetadata (c5Env 1 3 false) 2 3 true true
      { emptyState with ngModuleOfTypes := [(1, 2)] } =
      (.error (.message (declaredInTwoModulesMsg 1 2 3)),
       { emptyState with ngModuleOfTypes := [(1, 2)] }) :=
  C5_second_module_declaration_fails 1 2 3 false 0
    { emptyState with ngModuleOfTypes := [(1, 2)] } rfl (by decide) rfl

/-- The classification of pending exports: directives from the transitive
directive set, pipes from the pipe set, when classification succeeds. -/
theorem classifyExports_ok (env : Env) (mt : Nat) (tm : TransitiveMeta) :
    ∀ (ids ds ps : List CompileIdent), classifyExports env mt tm ids = .ok (ds, ps) →
      ds = ids.filter (fun id => decide (id.reference ∈ tm.directivesSet)) ∧
      ps = ids.filter (fun id =>
        !decide (id.reference ∈ tm.directivesSet) && decide (id.reference ∈ tm.pipesSet))
  | [], ds, ps, h => by
      simp only [classifyExports, Except.ok.injEq, Prod.mk.injEq] at h
      obtain ⟨rfl, rfl⟩ := h
      simp
  | id :: ids, ds, ps, h => by
      by_cases hd : id.reference ∈ tm.directivesSet
      · rw [show classifyExports env mt tm (id :: ids) =
            (do
              let r ← classifyExports env mt tm ids
              match r with
              | (ds2, ps2) => Except.ok (id :: ds2, ps2)) from by
            simp only [classifyExports]; rw [if_pos hd]] at h
        cases hrec : classifyExports env mt tm ids with
        | error e => rw [hrec] at h; cases h
        | ok pr =>
            obtain ⟨ds2, ps2⟩ := pr
            rw [hrec] at h
            simp only [exceptBind_ok, Except.ok.injEq, Prod.mk.injEq] at h
            obtain ⟨rfl, rfl⟩ := h
            obtain ⟨ih1, ih2⟩ := classifyExports_ok env mt tm ids ds2 ps2 hrec
            subst ih1
            subst ih2
            simp [List.filter, hd]
      · by_cases hp : id.reference ∈ tm.pipesSet
        · rw [show classifyExports env mt tm (id :: ids) =
              (do
                let r ← classifyExports env mt tm ids
                match r with
                | (ds2, ps2) => Except.ok (ds2, id :: ps2)) from by
              simp only [classifyExports]; rw [if_neg hd, if_pos hp]] at h
          cases hrec : classifyExports env mt tm ids with
          | error e => rw [hrec] at h; cases h
          | ok pr =>
              obtain ⟨ds2, ps2⟩ := pr
              rw [hrec] at h
              simp only [exceptBind_ok, Except.ok.injEq, Prod.mk.injEq] at h
              obtain ⟨rfl, rfl⟩ := h
              obtain ⟨ih1, ih2⟩ := classifyExports_ok env mt tm ids ds2 ps2 hrec
              subst ih1
              subst ih2
              simp [List.filter, hd, hp]
        · rw [show classifyExports env mt tm (id :: ids) =
              .error (.message ("Can't export " ++ _getTypeDescriptor env id.reference ++
                " " ++ stringifyRef id.reference ++ " from " ++ stringifyRef mt ++
                " as it was neither declared nor imported!")) from by
              simp only [classifyExports]; rw [if_neg hd, if_neg hp]] at h
          cases h

/-- Resolving the C6 module — which declares directive `d` and exports the
unrelated type `x` — fails with the UndeclaredExport diagnostic naming
`x`; only the type-to-declaring-module registration of `d` survives. -/
theorem c6Run (d x m fuel : Nat) (st : ResolverState) (hxd : x ≠ d) (hxm : x ≠ m)
    (hmod : alGet st.ngModuleCache m = none) (hx : alGet st.ngModuleCache x = none)
    (hd : alGet st.ngModuleOfTypes d = none) :
    _loadNgModuleMetadata (c6Env d x m) (fuel + 4) m true true st =
      (.error (.message ("Can't export " ++ _getTypeDescriptor (c6Env d x m) x ++ " " ++
         stringifyRef x ++ " from " ++ stringifyRef m ++
         " as it was neither declared nor imported!")),
       { st with ngModuleOfTypes := alSet st.ngModuleOfTypes d m }) := by
  have hann : ngModuleResolverResolve (c6Env d x m) m true = .ok (some (c6Annot d x)) := by
    simp [ngModuleResolverResolve, c6Env]
  have hannx : ngModuleResolverResolve (c6Env d x m) x false = .ok none := by
    simp [ngModuleResolverResolve, c6Env, hxm]
  have himp : flattenAndDedupeArray ((c6Annot d x).imports.getD []) =
      ([] : List RawImportEntry) := rfl
  have hexp : flattenAndDedupeArray ((c6Annot d x).exports.getD []) =
      [RawTypeEntry.validType x] := rfl
  have hdecl : flattenAndDedupeArray ((c6Annot d x).declarations.getD []) =
      [RawTypeEntry.validType d] := rfl
  have hpi : processImports (c6Env d x m) (fuel + 3) m true [] = pure ([], [], []) := rfl
  have hsumx : _loadNgModuleSummary (c6Env d x m) (fuel + 2) x true st = (.ok none, st) := by
    simp [_loadNgModuleSummary, _loadNgModuleMetadata, bind_apply, getR_apply,
      liftE_apply, pure_apply, hx, hannx]
  have hpex : processExports (c6Env d x m) (fuel + 3) m true [.validType x] st =
      (.ok ([], [⟨x⟩]), st) := by
    simp [processExports, bind_apply, pure_apply, hsumx, _getIdentifierMetadata]
  have hdir : (c6Env d x m).isDirective d = true := by simp [c6Env]
  have hadd : _addTypeToModule d m st =
      (.ok (), { st with ngModuleOfTypes := alSet st.ngModuleOfTypes d m }) := by
    simp only [_addTypeToModule, bind_apply, getR_apply, hd, modifyR_apply]
  simp [_loadNgModuleMetadata, processDeclarations, classifyExports, bind_apply, getR_apply,
    liftE_apply, pure_apply, throwR_apply, hmod, hann, himp, hexp, hdecl, hpi, hpex,
    hdir, hadd, hxd, setAdd,
    _getTransitiveNgModuleMetadata, getTransitiveImportedModules,
    getTransitiveExportedModules, mkTransitiveMeta, _getIdentifierMetadata]

/-- C6: when export classification succeeds, the pending exports found in
the module's transitive directive set are the exported directives and
those found in the pipe set the exported pipes; a module exporting a
non-module type in neither set fails with the UndeclaredExport diagnostic
naming that type. -/
theorem C6_undeclared_export :
    (∀ (env : Env) (mt : Nat) (tm : TransitiveMeta) (ids ds ps : List CompileIdent),
      classifyExports env mt tm ids = .ok (ds, ps) →
      ds = ids.filter (fun id => decide (id.reference ∈ tm.directivesSet)) ∧
      ps = ids.filter (fun id =>
        !decide (id.reference ∈ tm.directivesSet) && decide (id.reference ∈ tm.pipesSet))) ∧
    (∀ (d x m fuel : Nat) (st : ResolverState), x ≠ d → x ≠ m →
      alGet st.ngModuleCache m = none → alGet st.ngModuleCache x = none →
      alGet st.ngModuleOfTypes d = none →
      _loadNgModuleMetadata (c6Env d x m) (fuel + 4) m true true st =
        (.error (.message ("Can't export " ++ _getTypeDescriptor (c6Env d x m) x ++ " " ++
           stringifyRef x ++ " from " ++ stringifyRef m ++
           " as it was neither declared nor imported!")),
         { st with ngModuleOfTypes := alSet st.ngModuleOfTypes d m })) :=
  ⟨fun env mt tm ids ds ps h => classifyExports_ok env mt tm ids ds ps h,
   fun d x m fuel st hxd hxm hmod hx hd => c6Run d x m fuel st hxd hxm hmod hx hd⟩

/-- Witness: module 3 declares directive 1 and exports the unrelated type
2 — resolution fails with the UndeclaredExport diagnostic naming type 2;
and a concrete successful classification splits ids 5 and 6 into the
directive and pipe sets. -/
theorem C6_undeclared_export_witness :
    ([(⟨5⟩ : CompileIdent)] =
       [(⟨5⟩ : CompileIdent), ⟨6⟩].filter
         (fun id => decide (id.reference ∈ [5])) ∧
     [(⟨6⟩ : CompileIdent)] =
       [(⟨5⟩ : CompileIdent), ⟨6⟩].filter
         (fun id => !decide (id.reference ∈ [5]) && decide (id.reference ∈ [6]))) ∧
    _loadNgModuleMetadata (c6Env 1 2 3) 4 3 true true emptyState =
      (.error (.message ("Can't export " ++ _getTypeDescriptor (c6Env 1 2 3) 2 ++ " " ++
         stringifyRef 2 ++ " from " ++ stringifyRef 3 ++
         " as it was neither declared nor imported!")),
       { emptyState with ngModuleOfTypes := alSet emptyState.ngModuleOfTypes 1 3 }) :=
  ⟨C6_undeclared_export.1 emptyEnv 9
      { modules := [], providers := [], entryComponents := [], directives := [⟨5⟩],
        directivesSet := [5], pipes := [⟨6⟩], pipesSet := [6], directiveLoaders := [] }
      [⟨5⟩, ⟨6⟩] [⟨5⟩] [⟨6⟩] rfl,
   C6_undeclared_export.2 1 2 3 0 emptyState (by decide) (by decide) rfl rfl rfl⟩

/-- C7: a component whose template normalization is deferred fails with
ComponentStillLoading in forced-synchronous mode with the state untouched
(nothing cached); in asynchronous-tolerant mode the call returns the
pending continuation and also caches nothing, and running that
continuation produces exactly the state the forced-synchronous path under
an immediately-resolving normalizer (any environment agreeing on the
non-normalized metadata whose normalizer yields the same template
synchronously, e.g. `syncifyNormalize env`) produces — the finalized
metadata is indistinguishable from the synchronous-path result. -/
theorem C7_deferred_template (env env2 : Env) (dt : Nat) (st : ResolverState)
    (annot : RawDirective) (metadata : CompileDirectiveMetadata)
    (tpl : CompileTemplateMetadata) (url : String) (t : CompileTemplateMetadata)
    (hnc : (alGet st.directiveCache dt).isSome = false)
    (hmeta : getNonNormalizedDirectiveMetadata env dt = .ok (annot, metadata))
    (hcomp : metadata.isComponent = true)
    (htpl : metadata.template = some tpl)
    (hurl : componentModuleUrl env dt annot = .ok url)
    (hasync : env.normalizeTemplate (buildNormalizeRequest dt url tpl) = .async t)
    (hmeta2 : getNonNormalizedDirectiveMetadata env2 dt = .ok (annot, metadata))
    (hurl2 : componentModuleUrl env2 dt annot = .ok url)
    (hsync2 : env2.normalizeTemplate (buildNormalizeRequest dt url tpl) = .sync t) :
    _loadDirectiveMetadata env dt true st = (.error (.componentStillLoading dt), st) ∧
    _loadDirectiveMetadata env dt false st =
      (.ok (some { directiveType := dt, metadata := metadata, template := t }), st) ∧
    (completePendingDirective
       { directiveType := dt, metadata := metadata, template := t } st).2 =
      (_loadDirectiveMetadata env2 dt true st).2 ∧
    (_loadDirectiveMetadata env2 dt true st).1 = .ok none := by
  have hsyncRun : _loadDirectiveMetadata env2 dt true st =
      (.ok none, (createDirectiveMetadata dt metadata (some t) st).2) := by
    simp [_loadDirectiveMetadata, bind_apply, getR_apply, liftE_apply, pure_apply,
      hnc, hmeta2, hcomp, htpl, hurl2, hsync2, createDirectiveMetadata_apply]
  refine ⟨?_, ?_, ?_, ?_⟩
  · simp [_loadDirectiveMetadata, bind_apply, getR_apply, liftE_apply, pure_apply,
      throwR_apply, hnc, hmeta, hcomp, htpl, hurl, hasync]
  · simp [_loadDirectiveMetadata, bind_apply, getR_apply, liftE_apply, pure_apply,
      hnc, hmeta, hcomp, htpl, hurl, hasync]
  · rw [hsyncRun]
    rfl
  · rw [hsyncRun]

/-- Witness: component 30 of `c7Env` (deferred normalizer) fails
synchronously with ComponentStillLoading, asynchronously returns its
pending continuation, and that continuation caches exactly what the run
under the synchronized normalizer caches. -/
theorem C7_deferred_template_witness :
    (_loadDirectiveMetadata c7Env 30 true emptyState =
      (.error (.componentStillLoading 30), emptyState)) ∧
    (∃ md : CompileDirectiveMetadata,
      _loadDirectiveMetadata c7Env 30 false emptyState =
        (.ok (some { directiveType := 30, metadata := md,
                     template := emptyTemplateMeta }), emptyState) ∧
      (completePendingDirective
         { directiveType := 30, metadata := md, template := emptyTemplateMeta }
         emptyState).2 =
        (_loadDirectiveMetadata (syncifyNormalize c7Env) 30 true emptyState).2 ∧
      (_loadDirectiveMetadata (syncifyNormalize c7Env) 30 true emptyState).1 = .ok none) := by
  have h := C7_deferred_template c7Env (syncifyNormalize c7Env) 30 emptyState _ _ _ _
    emptyTemplateMeta rfl rfl (by rfl) (by rfl) rfl rfl rfl rfl rfl
  exact ⟨h.1, _, h.2.1, h.2.2.1, h.2.2.2⟩

mutual

/-- The identifiers collected by the deep value conversion are exactly the
embedded "other" (type-like) references, in traversal order. -/
theorem convert_snd_eq_otherRefs :
    ∀ v : RawValue,
      (convertToCompileValue v).2 = (otherRefs v).map (fun r => (⟨r⟩ : CompileIdent))
  | .strV _ => rfl
  | .numV _ => rfl
  | .boolV _ => rfl
  | .nullV => rfl
  | .arrV vs => by
      simp only [convertToCompileValue, otherRefs]
      exact convertList_snd_eq_otherRefs vs
  | .mapV fields => by
      simp only [convertToCompileValue, otherRefs]
      exact convertFields_snd_eq_otherRefs fields
  | .otherV r => rfl

/-- Array case of `convert_snd_eq_otherRefs`. -/
theorem convertList_snd_eq_otherRefs :
    ∀ vs : List RawValue,
      (convertValueList vs).2 = (otherRefsList vs).map (fun r => (⟨r⟩ : CompileIdent))
  | [] => rfl
  | v :: vs => by
      simp only [convertValueList, otherRefsList, List.map_append]
      rw [convert_snd_eq_otherRefs v, convertList_snd_eq_otherRefs vs]

/-- String-map case of `convert_snd_eq_otherRefs`. -/
theorem convertFields_snd_eq_otherRefs :
    ∀ fs : List (String × RawValue),
      (convertValueFields fs).2 = (otherRefsFields fs).map (fun r => (⟨r⟩ : CompileIdent))
  | [] => rfl
  | (k, v) :: fs => by
      simp only [convertValueFields, otherRefsFields, List.map_append]
      rw [convert_snd_eq_otherRefs v, convertFields_snd_eq_otherRefs fs]

end

/-- C8: a provider literal whose token is the reserved entry-components
collector token fails with the "only supports useValue" diagnostic when it
carries useFactory, useExisting or useClass; fails with the "only supports
multi = true" diagnostic when `multi` is false; and otherwise contributes
no entry to the normalized provider output while appending to the
entry-component sink exactly the embedded type-like identifiers of its
deep-scanned `useValue` that satisfy the `isDirective` predicate. -/
theorem C8_collector_token_provider (env : Env) (all : List RawProvider)
    (dbg : Option String) (idx : Nat) (t : RawToken) (uc : Option Nat)
    (uv : Option RawValue) (ue : Option RawToken) (uf : Option Nat)
    (deps : Option (List RawParam)) (multi : Bool)
    (htok : tokenReference (_getTokenMetadata t) = some analyzeForEntryComponentsRef) :
    ((uf.isSome || ue.isSome || uc.isSome) = true →
      compileOneProvider env all dbg (.literal t uc uv ue uf deps multi) idx =
        .error (.message "The ANALYZE_FOR_ENTRY_COMPONENTS token only supports useValue!")) ∧
    ((uf.isSome || ue.isSome || uc.isSome) = false → multi = false →
      compileOneProvider env all dbg (.literal t uc uv ue uf deps multi) idx =
        .error (.message
          "The ANALYZE_FOR_ENTRY_COMPONENTS token only supports 'multi = true'!")) ∧
    ((uf.isSome || ue.isSome || uc.isSome) = false →
      compileOneProvider env all dbg (.literal t uc uv ue uf deps true) idx =
        .ok (none,
          (match uv with
           | some v => (otherRefs v).map (fun r => (⟨r⟩ : CompileIdent))
           | none => []).filter (fun id => env.isDirective id.reference))) := by
  refine ⟨?_, ?_, ?_⟩
  · intro hsome
    simp [compileOneProvider, _getEntryComponentsFromProvider, htok, hsome,
      exceptBind_error]
  · intro hnone hm
    simp [compileOneProvider, _getEntryComponentsFromProvider, htok, hnone, hm,
      exceptBind_error]
  · intro hnone
    cases uv with
    | none =>
        simp [compileOneProvider, _getEntryComponentsFromProvider, htok, hnone,
          exceptBind_ok]
    | some v =>
        simp [compileOneProvider, _getEntryComponentsFromProvider, htok, hnone,
          exceptBind_ok, convert_snd_eq_otherRefs v]

/-- Witness: a collector-token provider with `useValue` holding directives
3 and (nested) 4 among non-directive 5 appends exactly 3 and 4; with
`useClass` it fails with the useValue diagnostic; without `multi` it fails
with the multi diagnostic. -/
theorem C8_collector_token_provider_witness :
    compileOneProvider
      { emptyEnv with isDirective := fun r => r == 3 || r == 4 } [] none
      (.literal (.ref 0) none
        (some (.arrV [.otherV 3, .mapV [("nested", .otherV 4)], .otherV 5]))
        none none none true) 0 =
      .ok (none, [⟨3⟩, ⟨4⟩]) ∧
    compileOneProvider emptyEnv [] none
      (.literal (.ref 0) (some 7) none none none none true) 0 =
      .error (.message "The ANALYZE_FOR_ENTRY_COMPONENTS token only supports useValue!") ∧
    compileOneProvider emptyEnv [] none
      (.literal (.ref 0) none none none none none false) 0 =
      .error (.message
        "The ANALYZE_FOR_ENTRY_COMPONENTS token only supports 'multi = true'!") := by
  refine ⟨?_, ?_, ?_⟩
  · have h := (C8_collector_token_provider
      { emptyEnv with isDirective := fun r => r == 3 || r == 4 } [] none 0 (.ref 0)
      none (some (.arrV [.otherV 3, .mapV [("nested", .otherV 4)], .otherV 5])) none none
      none true rfl).2.2 rfl
    rw [h]
    rfl
  · exact (C8_collector_token_provider emptyEnv [] none 0 (.ref 0) (some 7) none none
      none none true rfl).1 rfl
  · exact (C8_collector_token_provider emptyEnv [] none 0 (.ref 0) none none none
      none none false rfl).2.1 rfl rfl

/-- `seqOptions` yields nothing as soon as an element is `none`. -/
theorem seqOptions_eq_none {α : Type} :
    ∀ xs : List (Option α), none ∈ xs → seqOptions xs = none
  | [], h => absurd h (List.not_mem_nil _)
  | none :: _, _ => rfl
  | some a :: xs, h => by
      have hx : (none : Option α) ∈ xs := by
        rcases List.mem_cons.mp h with h2 | h2
        · cases h2
        · exact h2
      simp only [seqOptions, seqOptions_eq_none xs hx]
      rfl

/-- C9: when some parameter's token cannot be determined, dependency
extraction still maps every parameter and fails with the diagnostic whose
parenthesized list has one entry per parameter, in order: `?` for each
parameter with no determinable token and the stringified token for each
resolved one. -/
theorem C9_unresolved_dependency (env : Env) (typeOrFunc : Nat)
    (dependencies : Option (List RawParam))
    (hun : ∃ p ∈ effectiveParams env typeOrFunc dependencies, dependencyOfParam p = none) :
    _getDependenciesMetadata env typeOrFunc dependencies =
      .error (.message ("Can't resolve all parameters for " ++ stringifyRef typeOrFunc ++
        ": (" ++
        String.intercalate (", ")
          ((effectiveParams env typeOrFunc dependencies).map (fun p =>
            match dependencyOfParam p with
            | some dep => stringifyToken dep.token
            | none => "?")) ++ ").")) := by
  obtain ⟨p, hp, hnone⟩ := hun
  have hmem : (none : Option DiDep) ∈
      (effectiveParams env typeOrFunc dependencies).map dependencyOfParam :=
    List.mem_map.mpr ⟨p, hp, hnone⟩
  have hseq := seqOptions_eq_none _ hmem
  simp only [_getDependenciesMetadata, hseq, depsTokensString, List.map_map]
  rfl

/-- Witness: two parameters, the first with no token, the second the type
`Type9` — extraction fails naming both positions: `(?, Type9)`. -/
theorem C9_unresolved_dependency_witness :
    _getDependenciesMetadata emptyEnv 7 (some [.single none, .single (some (.ref 9))]) =
      .error (.message "Can't resolve all parameters for Type7: (?, Type9).") := by
  rw [C9_unresolved_dependency emptyEnv 7 (some [.single none, .single (some (.ref 9))])
    ⟨.single none, List.mem_cons_self _ _, rfl⟩]
  rfl

/-- Bind preserves the cache-pairing invariant. -/
theorem presInv_bind {α β : Type} (m : ResM α) (k : α → ResM β)
    (hm : PresInv m) (hk : ∀ a, PresInv (k a)) : PresInv (m >>= k) := by
  intro st hst
  rw [bind_apply]
  cases hm2 : m st with
  | mk r st2 =>
      cases r with
      | ok a =>
          have h2 : CacheKeyInv st2 := by
            have h3 := hm st hst
            rw [hm2] at h3
            exact h3
          exact hk a st2 h2
      | error e =>
          have h3 := hm st hst
          rw [hm2] at h3
          exact h3

/-- Pure computations preserve the invariant. -/
theorem presInv_pure {α : Type} (a : α) : PresInv (pure a : ResM α) := fun _ h => h

/-- Throws preserve the invariant (the throw keeps the state). -/
theorem presInv_throw {α : Type} (e : CompileError) : PresInv (throwR e : ResM α) :=
  fun _ h => h

/-- Reading the state preserves the invariant. -/
theorem presInv_getR : PresInv getR := fun _ h => h

/-- Lifting a pure result preserves the invariant. -/
theorem presInv_liftE {α : Type} (e : Except CompileError α) : PresInv (liftE e) := by
  intro st h
  cases e <;> exact h

/-- A state update that keeps the invariant preserves it in the monad. -/
theorem presInv_modifyR (f : ResolverState → ResolverState)
    (hf : ∀ st, CacheKeyInv st → CacheKeyInv (f st)) : PresInv (modifyR f) :=
  fun st h => hf st h

/-- Writing a directive record and its summary under the same key keeps
the cache pairing. -/
theorem cacheInv_setDirective (st : ResolverState) (dt : Nat)
    (md : CompileDirectiveMetadata) (h : CacheKeyInv st) :
    CacheKeyInv { st with directiveCache := alSet st.directiveCache dt md,
                          directiveSummaryCache :=
                            alSet st.directiveSummaryCache dt md.toSummary } := by
  refine ⟨fun k => ?_, fun k => h.2 k⟩
  simp only [mem_alKeys_alSet]
  rw [h.1 k]

/-- Writing a pipe record and its summary under the same key keeps the
cache pairing. -/
theorem cacheInv_setPipe (st : ResolverState) (pt : Nat)
    (pm : CompilePipeMetadata) (h : CacheKeyInv st) :
    CacheKeyInv { st with pipeCache := alSet st.pipeCache pt pm,
                          pipeSummaryCache :=
                            alSet st.pipeSummaryCache pt pm.toSummary } := by
  refine ⟨fun k => h.1 k, fun k => ?_⟩
  simp only [mem_alKeys_alSet]
  rw [h.2 k]

/-- Deleting a type from all four caches keeps the cache pairing. -/
theorem cacheInv_clearFor (st : ResolverState) (t : Nat) (h : CacheKeyInv st) :
    CacheKeyInv { st with directiveCache := alDelete st.directiveCache t,
                          directiveSummaryCache := alDelete st.directiveSummaryCache t,
                          pipeCache := alDelete st.pipeCache t,
                          pipeSummaryCache := alDelete st.pipeSummaryCache t,
                          ngModuleOfTypes := alDelete st.ngModuleOfTypes t,
                          ngModuleCache := [] } := by
  refine ⟨fun k => ?_, fun k => ?_⟩ <;>
    · simp only [mem_alKeys_alDelete]
      constructor
      · rintro ⟨hmem, hne⟩
        first
          | exact ⟨(h.1 k).mp hmem, hne⟩
          | exact ⟨(h.2 k).mp hmem, hne⟩
      · rintro ⟨hmem, hne⟩
        first
          | exact ⟨(h.1 k).mpr hmem, hne⟩
          | exact ⟨(h.2 k).mpr hmem, hne⟩

/-- The empty state satisfies the cache pairing. -/
theorem cacheInv_empty : CacheKeyInv emptyState :=
  ⟨fun _ => Iff.rfl, fun _ => Iff.rfl⟩

/-- Registering the declaring module of a type preserves the invariant. -/
theorem presInv_addTypeToModule (type mt : Nat) : PresInv (_addTypeToModule type mt) := by
  simp only [_addTypeToModule]
  refine presInv_bind _ _ presInv_getR ?_
  intro stv
  cases alGet stv.ngModuleOfTypes type with
  | some oldModule =>
      show PresInv (if oldModule ≠ mt
        then (throwR (.message (declaredInTwoModulesMsg type oldModule mt)) : ResM Unit)
        else modifyR (fun st2 =>
          { st2 with ngModuleOfTypes := alSet st2.ngModuleOfTypes type mt }))
      by_cases hne : oldModule ≠ mt
      · rw [if_pos hne]
        exact presInv_throw _
      · rw [if_neg hne]
        exact presInv_modifyR _ (fun st h => h)
  | none => exact presInv_modifyR _ (fun st h => h)

/-- Finalizing a directive caches record and summary together: invariant
preserved. -/
theorem presInv_createDirectiveMetadata (dt : Nat) (md : CompileDirectiveMetadata)
    (tm : Option CompileTemplateMetadata) : PresInv (createDirectiveMetadata dt md tm) := by
  intro st h
  rw [createDirectiveMetadata_apply]
  exact cacheInv_setDirective st dt _ h

/-- Loading a pipe caches record and summary together: invariant
preserved. -/
theorem presInv_loadPipeMetadata (env : Env) (pt : Nat) :
    PresInv (_loadPipeMetadata env pt) := by
  simp only [_loadPipeMetadata]
  refine presInv_bind _ _ (presInv_liftE _) ?_
  intro pa
  refine presInv_bind _ _ (presInv_liftE _) ?_
  intro ty
  intro st h
  exact cacheInv_setPipe st pt _ h

/-- `getOrLoadPipeMetadata` preserves the invariant. -/
theorem presInv_getOrLoadPipe (env : Env) (pt : Nat) :
    PresInv (getOrLoadPipeMetadata env pt) := by
  simp only [getOrLoadPipeMetadata]
  refine presInv_bind _ _ presInv_getR ?_
  intro stv
  cases alGet stv.pipeCache pt with
  | some pm => exact presInv_pure _
  | none => exact presInv_loadPipeMetadata env pt

/-- `_loadDirectiveMetadata` preserves the invariant. -/
theorem presInv_loadDirectiveMetadata (env : Env) (dt : Nat) (isSync : Bool) :
    PresInv (_loadDirectiveMetadata env dt isSync) := by
  simp only [_loadDirectiveMetadata]
  refine presInv_bind _ _ presInv_getR ?_
  intro stv
  by_cases hcc : (alGet stv.directiveCache dt).isSome = true
  · rw [if_pos hcc]
    exact presInv_pure _
  · rw [if_neg hcc]
    refine presInv_bind _ _ (presInv_liftE _) ?_
    intro x
    by_cases hcm : x.2.isComponent = true
    · rw [if_pos hcm]
      cases x.2.template with
      | none => exact presInv_throw _
      | some tpl =>
          refine presInv_bind _ _ (presInv_liftE _) ?_
          intro url
          cases env.normalizeTemplate (buildNormalizeRequest dt url tpl) with
          | sync t =>
              exact presInv_bind _ _ (presInv_createDirectiveMetadata dt x.2 (some t))
                (fun _ => presInv_pure _)
          | async t =>
              cases isSync with
              | true => exact presInv_throw _
              | false => exact presInv_pure _
    · rw [if_neg hcm]
      exact presInv_bind _ _ (presInv_createDirectiveMetadata dt x.2 none)
        (fun _ => presInv_pure _)

/-- `completePendingDirective` preserves the invariant. -/
theorem presInv_completePendingDirective (p : DirectivePending) :
    PresInv (completePendingDirective p) :=
  presInv_createDirectiveMetadata p.directiveType p.metadata (some p.template)

/-- The declarations loop preserves the invariant. -/
theorem presInv_processDeclarations (env : Env) (mt : Nat) (isSync : Bool) :
    ∀ (decls : List RawTypeEntry) (tm : TransitiveMeta) (dd dp : List CompileIdent),
      PresInv (processDeclarations env mt isSync decls tm dd dp)
  | [], _, _, _ => presInv_pure _
  | d :: rest, tm, dd, dp => by
      cases d with
      | invalidType tag => exact presInv_throw _
      | validType r =>
          simp only [processDeclarations]
          by_cases hdir : env.isDirective r = true
          · rw [if_pos hdir]
            exact presInv_bind _ _ (presInv_addTypeToModule r mt)
              (fun _ => presInv_processDeclarations env mt isSync rest _ _ _)
          · rw [if_neg hdir]
            by_cases hp : env.isPipe r = true
            · rw [if_pos hp]
              refine presInv_bind _ _ (presInv_addTypeToModule r mt) ?_
              intro _
              exact presInv_bind _ _ (presInv_loadPipeMetadata env r)
                (fun _ => presInv_processDeclarations env mt isSync rest _ _ _)
            · rw [if_neg hp]
              exact presInv_throw _

/-- The directive-loader pass preserves the invariant. -/
theorem presInv_runDirectiveLoaders (env : Env) :
    ∀ loaders : List (Nat × Bool), PresInv (runDirectiveLoaders env loaders)
  | [] => presInv_pure _
  | (d, isSync) :: rest => by
      simp only [runDirectiveLoaders]
      refine presInv_bind _ _ (presInv_loadDirectiveMetadata env d isSync) ?_
      intro _
      exact presInv_bind _ _ (presInv_runDirectiveLoaders env rest)
        (fun _ => presInv_pure _)

/-- The fueled module-resolution group preserves the invariant, for every
fuel. -/
theorem presInv_module_mutual (env : Env) : ∀ fuel : Nat,
    (∀ (mt : Nat) (isSync tif : Bool), PresInv (_loadNgModuleMetadata env fuel mt isSync tif)) ∧
    (∀ (mt : Nat) (isSync : Bool), PresInv (_loadNgModuleSummary env fuel mt isSync)) ∧
    (∀ (mt : Nat) (isSync : Bool) (entries : List RawImportEntry),
      PresInv (processImports env fuel mt isSync entries)) ∧
    (∀ (mt : Nat) (isSync : Bool) (entries : List RawTypeEntry),
      PresInv (processExports env fuel mt isSync entries)) := by
  intro fuel
  induction fuel with
  | zero =>
      exact ⟨fun _ _ _ => presInv_throw _, fun _ _ => presInv_throw _,
        fun _ _ _ => presInv_throw _, fun _ _ _ => presInv_throw _⟩
  | succ fuel ih =>
      obtain ⟨ihLoad, ihSum, ihImp, ihExp⟩ := ih
      refine ⟨?_, ?_, ?_, ?_⟩
      · intro mt isSync tif
        simp only [_loadNgModuleMetadata]
        refine presInv_bind _ _ presInv_getR ?_
        intro stv
        cases alGet stv.ngModuleCache mt with
        | some cm => exact presInv_pure _
        | none =>
            refine presInv_bind _ _ (presInv_liftE _) ?_
            intro aOpt
            cases aOpt with
            | none => exact presInv_pure _
            | some meta0 =>
                refine presInv_bind _ _ (ihImp mt isSync _) ?_
                intro x
                refine presInv_bind _ _ (ihExp mt isSync _) ?_
                intro y
                refine presInv_bind _ _
                  (presInv_processDeclarations env mt isSync _ _ _ _) ?_
                intro z
                refine presInv_bind _ _ (presInv_liftE _) ?_
                intro w
                cases meta0.providers with
                | some ps =>
                    refine presInv_bind _ _ (presInv_liftE _) ?_
                    intro own
                    refine presInv_bind _ _ (presInv_liftE _) ?_
                    intro ec2
                    refine presInv_bind _ _ (presInv_liftE _) ?_
                    intro boot
                    refine presInv_bind _ _ (presInv_liftE _) ?_
                    intro ty
                    exact presInv_bind _ _ (presInv_modifyR _ (fun st h => h))
                      (fun _ => presInv_pure _)
                | none =>
                    refine presInv_bind _ _ (presInv_pure _) ?_
                    intro own
                    refine presInv_bind _ _ (presInv_liftE _) ?_
                    intro ec2
                    refine presInv_bind _ _ (presInv_liftE _) ?_
                    intro boot
                    refine presInv_bind _ _ (presInv_liftE _) ?_
                    intro ty
                    exact presInv_bind _ _ (presInv_modifyR _ (fun st h => h))
                      (fun _ => presInv_pure _)
      · intro mt isSync
        simp only [_loadNgModuleSummary]
        exact presInv_bind _ _ (ihLoad mt isSync false) (fun _ => presInv_pure _)
      · intro mt isSync entries
        cases entries with
        | nil => exact presInv_pure _
        | cons e rest =>
            simp only [processImports]
            cases e with
            | modType r =>
                refine presInv_bind _ _ (presInv_pure _) ?_
                intro y
                cases y.1 with
                | some r2 =>
                    refine presInv_bind _ _ (ihSum r2 isSync) ?_
                    intro sOpt
                    cases sOpt with
                    | none => exact presInv_throw _
                    | some s =>
                        exact presInv_bind _ _ (ihImp mt isSync rest)
                          (fun _ => presInv_pure _)
                | none => exact presInv_throw _
            | moduleWithProviders ng provOpt =>
                refine presInv_bind _ _ ?_ ?_
                · cases provOpt with
                  | some ps =>
                      exact presInv_bind _ _ (presInv_liftE _) (fun _ => presInv_pure _)
                  | none => exact presInv_pure _
                · intro y
                  cases y.1 with
                  | some r2 =>
                      refine presInv_bind _ _ (ihSum r2 isSync) ?_
                      intro sOpt
                      cases sOpt with
                      | none => exact presInv_throw _
                      | some s =>
                          exact presInv_bind _ _ (ihImp mt isSync rest)
                            (fun _ => presInv_pure _)
                  | none => exact presInv_throw _
            | invalidImport tag =>
                refine presInv_bind _ _ (presInv_pure _) ?_
                intro y
                cases y.1 with
                | some r2 =>
                    refine presInv_bind _ _ (ihSum r2 isSync) ?_
                    intro sOpt
                    cases sOpt with
                    | none => exact presInv_throw _
                    | some s =>
                        exact presInv_bind _ _ (ihImp mt isSync rest)
                          (fun _ => presInv_pure _)
                | none => exact presInv_throw _
      · intro mt isSync entries
        cases entries with
        | nil => exact presInv_pure _
        | cons e rest =>
            simp only [processExports]
            cases e with
            | invalidType tag => exact presInv_throw _
            | validType r =>
                refine presInv_bind _ _ (ihSum r isSync) ?_
                intro sOpt
                refine presInv_bind _ _ (ihExp mt isSync rest) ?_
                intro pr
                cases sOpt with
                | some s => exact presInv_pure _
                | none => exact presInv_pure _

/-- Every public resolver operation preserves the cache pairing. -/
theorem cacheInv_runOp (env : Env) (op : ResolverOp) (st : ResolverState)
    (h : CacheKeyInv st) : CacheKeyInv (runOp env op st) := by
  cases op with
  | loadModule fuel m isSync tif =>
      have hrun : PresInv (loadNgModuleMetadata env fuel m isSync tif) := by
        simp only [loadNgModuleMetadata]
        refine presInv_bind _ _ ((presInv_module_mutual env fuel).1 m isSync tif) ?_
        intro mOpt
        cases mOpt with
        | some m2 =>
            exact presInv_bind _ _ (presInv_runDirectiveLoaders env _)
              (fun _ => presInv_pure _)
        | none => exact presInv_pure _
      exact hrun st h
  | getUnloadedModule fuel m isSync tif =>
      exact (presInv_module_mutual env fuel).1 m isSync tif st h
  | loadDirective d isSync => exact presInv_loadDirectiveMetadata env d isSync st h
  | completeDirective p => exact presInv_completePendingDirective p st h
  | loadPipe p => exact presInv_loadPipeMetadata env p st h
  | getOrLoadPipe p => exact presInv_getOrLoadPipe env p st h
  | clearFor t => exact cacheInv_clearFor st t h
  | clearAll => exact cacheInv_empty

/-- Any operation sequence preserves the cache pairing. -/
theorem cacheInv_execOps (env : Env) :
    ∀ (ops : List ResolverOp) (st : ResolverState), CacheKeyInv st →
      CacheKeyInv (execOps env ops st)
  | [], _, h => h
  | op :: rest, st, h =>
      cacheInv_execOps env rest (runOp env op st) (cacheInv_runOp env op st h)

/-- The directive metadata accessor succeeds exactly when the cache holds
the type. -/
theorem getDirectiveMetadata_ok_iff (t : Nat) (st : ResolverState) :
    (∃ v, (getDirectiveMetadata t st).1 = Except.ok v) ↔
      t ∈ alKeys st.directiveCache := by
  rw [← alGet_isSome_iff_mem]
  cases hc : alGet st.directiveCache t with
  | some v => simp [getDirectiveMetadata, bind_apply, getR_apply, hc, pure_apply]
  | none => simp [getDirectiveMetadata, bind_apply, getR_apply, hc, throwR_apply]

/-- The directive summary accessor succeeds exactly when the summary cache
holds the type. -/
theorem getDirectiveSummary_ok_iff (t : Nat) (st : ResolverState) :
    (∃ v, (getDirectiveSummary t st).1 = Except.ok v) ↔
      t ∈ alKeys st.directiveSummaryCache := by
  rw [← alGet_isSome_iff_mem]
  cases hc : alGet st.directiveSummaryCache t with
  | some v => simp [getDirectiveSummary, bind_apply, getR_apply, hc, pure_apply]
  | none => simp [getDirectiveSummary, bind_apply, getR_apply, hc, throwR_apply]

/-- The pipe metadata accessor succeeds exactly when the cache holds the
type. -/
theorem getPipeMetadata_ok_iff (t : Nat) (st : ResolverState) :
    (∃ v, (getPipeMetadata t st).1 = Except.ok v) ↔ t ∈ alKeys st.pipeCache := by
  rw [← alGet_isSome_iff_mem]
  cases hc : alGet st.pipeCache t with
  | some v => simp [getPipeMetadata, bind_apply, getR_apply, hc, pure_apply]
  | none => simp [getPipeMetadata, bind_apply, getR_apply, hc, throwR_apply]

/-- The pipe summary accessor succeeds exactly when the summary cache
holds the type. -/
theorem getPipeSummary_ok_iff (t : Nat) (st : ResolverState) :
    (∃ v, (getPipeSummary t st).1 = Except.ok v) ↔
      t ∈ alKeys st.pipeSummaryCache := by
  rw [← alGet_isSome_iff_mem]
  cases hc : alGet st.pipeSummaryCache t with
  | some v => simp [getPipeSummary, bind_apply, getR_apply, hc, pure_apply]
  | none => simp [getPipeSummary, bind_apply, getR_apply, hc, throwR_apply]

/-- C10: after every sequence of resolver operations started from a state
satisfying the cache pairing (in particular the initial empty state), the
directive metadata and summary caches hold the same key set and so do the
pipe caches; consequently each metadata accessor succeeds for a type
exactly when the corresponding summary accessor does. -/
theorem C10_paired_caches (env : Env) (ops : List ResolverOp) (st : ResolverState)
    (h : CacheKeyInv st) :
    CacheKeyInv (execOps env ops st) ∧
    (∀ t, (∃ v, (getDirectiveMetadata t (execOps env ops st)).1 = Except.ok v) ↔
          (∃ v, (getDirectiveSummary t (execOps env ops st)).1 = Except.ok v)) ∧
    (∀ t, (∃ v, (getPipeMetadata t (execOps env ops st)).1 = Except.ok v) ↔
          (∃ v, (getPipeSummary t (execOps env ops st)).1 = Except.ok v)) := by
  have hinv := cacheInv_execOps env ops st h
  refine ⟨hinv, fun t => ?_, fun t => ?_⟩
  · rw [getDirectiveMetadata_ok_iff, getDirectiveSummary_ok_iff]
    exact hinv.1 t
  · rw [getPipeMetadata_ok_iff, getPipeSummary_ok_iff]
    exact hinv.2 t

/-- Witness: loading pipe 21 and then clearing type 5 from the empty state
keeps the caches paired and the accessor agreement. -/
theorem C10_paired_caches_witness :
    CacheKeyInv (execOps c4Env [.loadPipe 21, .clearFor 5] emptyState) ∧
    (∀ t, (∃ v, (getDirectiveMetadata t
            (execOps c4Env [.loadPipe 21, .clearFor 5] emptyState)).1 = Except.ok v) ↔
          (∃ v, (getDirectiveSummary t
            (execOps c4Env [.loadPipe 21, .clearFor 5] emptyState)).1 = Except.ok v)) ∧
    (∀ t, (∃ v, (getPipeMetadata t
            (execOps c4Env [.loadPipe 21, .clearFor 5] emptyState)).1 = Except.ok v) ↔
          (∃ v, (getPipeSummary t
            (execOps c4Env [.loadPipe 21, .clearFor 5] emptyState)).1 = Except.ok v)) :=
  C10_paired_caches c4Env [.loadPipe 21, .clearFor 5] emptyState cacheInv_empty

end AngularMeta
